import Mathlib

/-!
Verification development for the `stockanalisys` repository's ONS energy-data
acquisition engine (`src/energy_fetcher.py`, `src/ons_integration/client.py`).

The Python code is shallowly embedded:

* Python `float` values are modelled as rationals (`ℚ`); parsing of decimal
  strings is modelled on the finite-decimal subset of Python's `float()`
  grammar (optional surrounding whitespace, optional sign, digits with at most
  one dot; exponents / `inf` / `nan` are outside the subset — no claim in this
  development depends on them).
* Python dicts are modelled as association lists with insertion-order
  semantics (`dictInsert` replaces in place or appends).
* Fallible code is modelled in `Except String` / `Option`; an uncaught Python
  exception is an `Except.error`.
* Network transports and test fixtures are explicit parameters (`Net`,
  fixture stores inside `Client`), so every upstream behaviour is a concrete
  input to the embedded functions.
-/

/-- Truncation toward zero, the semantics of Python's `int()` on a float. -/
def pyInt (q : ℚ) : ℤ :=
  if 0 ≤ q then q.floor else -((-q).floor)

/-- Round-half-to-even to an integer, the semantics of Python's `round(x)`
on an exactly representable value (our model uses exact rationals). -/
def rhe (q : ℚ) : ℤ :=
  let f := q.floor
  let frac := q - (f : ℚ)
  if frac < 1/2 then f
  else if 1/2 < frac then f + 1
  else if f % 2 = 0 then f else f + 1

/-- Round-half-to-even to one decimal place, the semantics of Python's
`round(x, 1)` in the exact-rational model. -/
def round1 (q : ℚ) : ℚ := ((rhe (q * 10) : ℚ)) / 10

/-- Whitespace characters stripped by Python's `str.strip()` / accepted around
`float()` input. -/
def isPyWs (c : Char) : Bool :=
  c = ' ' || c = '\t' || c = '\n' || c = '\r' || c = '\x0b' || c = '\x0c'

/-- Strip `isPyWs` characters from both ends of a character list. -/
def stripWs (cs : List Char) : List Char :=
  ((cs.dropWhile isPyWs).reverse.dropWhile isPyWs).reverse

/-- Value of a list of decimal digit characters. -/
def digitsToNat (cs : List Char) : Nat :=
  cs.foldl (fun n c => n * 10 + (c.toNat - 48)) 0

/-- Unsigned part of the `float()` grammar: digits, optionally a dot and more
digits, at least one digit overall, nothing else. -/
def parseUnsigned (cs : List Char) : Option ℚ :=
  let ip := cs.takeWhile Char.isDigit
  let rest := cs.dropWhile Char.isDigit
  match rest with
  | [] => if ip.isEmpty then none else some ((digitsToNat ip : ℚ))
  | '.' :: fp =>
    if fp.all Char.isDigit && (!ip.isEmpty || !fp.isEmpty) then
      some ((digitsToNat ip : ℚ) + (digitsToNat fp : ℚ) / (10 : ℚ) ^ fp.length)
    else none
  | _ => none

/-- Model of Python's `float(s)` on the finite-decimal subset: strip
whitespace, optional sign, digits with at most one dot.  `none` models a
`ValueError`. -/
def parseFloatStr (s : String) : Option ℚ :=
  match stripWs s.toList with
  | '+' :: cs => parseUnsigned cs
  | '-' :: cs => (parseUnsigned cs).map Neg.neg
  | cs => parseUnsigned cs

/-- Insert into an association list with Python-dict semantics: replace the
value in place if the key exists, otherwise append at the end. -/
def dictInsert (d : List (String × α)) (k : String) (v : α) : List (String × α) :=
  if d.any (fun kv => kv.1 = k) then
    d.map (fun kv => if kv.1 = k then (k, v) else kv)
  else d ++ [(k, v)]

/-- First-match lookup in an association list (the keys of every dict built
by the embedding are unique, so this is Python dict lookup). -/
def alookup (k : String) : List (String × α) → Option α
  | [] => none
  | kv :: rest => if kv.1 = k then some kv.2 else alookup k rest

/-- First truthy string of a list of `str`-or-`None` values, else `""`:
models a Python chain `a or b or ... or ""`. -/
def firstTruthy : List (Option String) → String
  | [] => ""
  | some s :: rest => if s = "" then firstTruthy rest else s
  | none :: rest => firstTruthy rest

/-- Substring test, the semantics of Python's `kw in s` on strings
(for a non-empty pattern). -/
def strContains (s pat : String) : Bool :=
  (s.splitOn pat).length != 1

example : parseFloatStr "  65.4 " = some (654 / 10) := by with_unfolding_all decide
example : parseFloatStr "65,4" = none := by with_unfolding_all decide
example : parseFloatStr "-.5" = some (-(1 / 2)) := by with_unfolding_all decide
example : parseFloatStr "." = none := by with_unfolding_all decide
example : pyInt (106 / 10) = 10 := by with_unfolding_all decide
example : rhe (106 / 10) = 11 := by with_unfolding_all decide
example : pyInt (-(515 : ℚ) / 10) = -51 := by with_unfolding_all decide
example : round1 (5575 / 100) = 558 / 10 := by with_unfolding_all decide

/-- Dynamic (Python/JSON) value as handled by the catalog (CKAN) code path of
`ons_integration/client.py`. -/
inductive JVal where
  | null
  | bool (b : Bool)
  | num (q : ℚ)
  | str (s : String)
  | arr (xs : List JVal)
  | obj (kvs : List (String × JVal))

/-- Python truthiness of a dynamic value. -/
def JVal.truthy : JVal → Bool
  | .null => false
  | .bool b => b
  | .num q => q != 0
  | .str s => s != ""
  | .arr xs => !xs.isEmpty
  | .obj kvs => !kvs.isEmpty

/-- Model of Python `v.get(k, default)`: succeeds only on dicts; on any other
value the attribute access raises (`AttributeError`). -/
def pyGetD (v : JVal) (k : String) (d : JVal) : Except String JVal :=
  match v with
  | .obj kvs => .ok ((alookup k kvs).getD d)
  | _ => .error "AttributeError: get on non-dict"

/-- Model of Python `len(v)`: defined for str/list/dict, raises otherwise. -/
def pyLen : JVal → Except String Nat
  | .str s => .ok s.length
  | .arr xs => .ok xs.length
  | .obj kvs => .ok kvs.length
  | _ => .error "TypeError: object has no len"

/-- Model of Python iteration `for x in v`: lists yield elements, strings yield
one-character strings, dicts yield their keys; other values raise. -/
def pyIter : JVal → Except String (List JVal)
  | .arr xs => .ok xs
  | .str s => .ok (s.toList.map (fun c => .str (String.mk [c])))
  | .obj kvs => .ok (kvs.map (fun kv => .str kv.1))
  | _ => .error "TypeError: not iterable"

/-- Model of Python `v.lower()`: raises on non-strings. -/
def pyLower : JVal → Except String String
  | .str s => .ok s.toLower
  | _ => .error "AttributeError: lower on non-str"

/-- Model of Python `v.upper()`: raises on non-strings. -/
def pyUpper : JVal → Except String String
  | .str s => .ok s.toUpper
  | _ => .error "AttributeError: upper on non-str"

/-- Model of Python `v[0]`: first element of a list or string; raises on empty
or non-indexable values (a dict raises `KeyError` for the absent key `0`). -/
def pyIndex0 : JVal → Except String JVal
  | .arr (x :: _) => .ok x
  | .arr [] => .error "IndexError"
  | .str s =>
    match s.toList with
    | c :: _ => .ok (.str (String.mk [c]))
    | [] => .error "IndexError"
  | _ => .error "TypeError: not indexable"

/-- Model of Python `v.keys()` (in insertion order): dicts only. -/
def pyKeys : JVal → Except String (List String)
  | .obj kvs => .ok (kvs.map (fun kv => kv.1))
  | _ => .error "AttributeError: keys on non-dict"

/-- Model of Python `float(v)` on a dynamic value: numbers and bools convert,
strings go through the decimal parser (`ValueError` on failure), anything else
raises `TypeError`. -/
def pyFloatJ : JVal → Except String ℚ
  | .num q => .ok q
  | .bool b => .ok (if b then 1 else 0)
  | .str s =>
    match parseFloatStr s with
    | some q => .ok q
    | none => .error "ValueError"
  | _ => .error "TypeError"

/-- A decoded semicolon-CSV row as produced by `csv.DictReader`: header name →
raw string value; `none` models Python `None` for a missing trailing field.
Extra unheadered trailing fields (stored by `DictReader` under the `None` key)
are not modelled — no embedded code path reads them. -/
abbrev CsvRecord := List (String × Option String)

/-- Build a Python dict from a sequence of key/value pairs (later duplicate
keys overwrite in place). -/
def dictOfPairs (ps : List (String × α)) : List (String × α) :=
  ps.foldl (fun d kv => dictInsert d kv.1 kv.2) []

/-- Physical lines of a CSV body: split on newlines, tolerate CRLF, skip blank
lines (as `csv.reader`/`DictReader` do). Quoted fields are outside the model —
the ONS files and all fixtures are plain semicolon-separated text. -/
def csvLines (body : String) : List String :=
  ((body.splitOn "\n").map
    (fun l => if l.endsWith "\r" then l.dropRight 1 else l)).filter
    (fun l => l != "")

/-- Model of decoding a semicolon-delimited body with `csv.DictReader`:
first non-blank line is the header, every further line one record. -/
def csvParse (body : String) : List CsvRecord :=
  match csvLines body with
  | [] => []
  | header :: rows =>
    let hs := header.splitOn ";"
    rows.map (fun r =>
      let vs := r.splitOn ";"
      dictOfPairs (hs.enum.map (fun ih => (ih.2, vs[ih.1]?))))

/-- Model of Python `record.get(k)` on a CSV row: `none` for an absent key or a
stored `None` value. -/
def rget (r : CsvRecord) (k : String) : Option String :=
  (alookup k r).join

/-- Model of the Python test `k in record and record[k]` on a CSV row. -/
def rHasTruthy (r : CsvRecord) (k : String) : Bool :=
  match alookup k r with
  | some (some v) => v != ""
  | _ => false

example : csvParse "a;b\r\n1;2\n" = [[("a", some "1"), ("b", some "2")]] := by
  with_unfolding_all decide
example : csvParse "a;b\n1" = [[("a", some "1"), ("b", none)]] := by
  with_unfolding_all decide
example : csvParse "a;b\n" = [] := by with_unfolding_all decide

/-- Configuration state of `ONSClient` relevant to the embedded code paths.
The fixture stores model the observable contents of the fixtures directory:
a fixture file that is missing, unreadable or syntactically invalid is
simply absent from the store (`_load_fixture` / `_load_csv_fixture` convert
all those cases to `None`), and an unset `fixtures_path` is the empty store. -/
structure Client where
  use_fixtures : Bool
  jsonFixtures : List (String × JVal)
  csvFixtures : List (String × List CsvRecord)

/-- The upstream transports, as explicit behaviour parameters: the CKAN
metadata API (endpoint and params to a decoded JSON envelope, or a
request/decoding failure) and the S3 object store (url to a decoded body, or a
transport/decoding failure). -/
structure Net where
  api : String → Option (List (String × JVal)) → Except String JVal
  s3 : String → Except String String

/-- The fixture file stem built by `ONSClient._load_fixture` from the endpoint
and the optional `q` query parameter. -/
def fixtureName (endpoint : String) (params : Option (List (String × JVal))) : String :=
  let base := "ons_" ++ endpoint
  match params with
  | some ps =>
    match alookup "q" ps with
    | some (.str q) => base ++ "_" ++ q
    | some _ => base
    | none => base
  | none => base

/-- Embedding of `ONSClient._load_fixture`. -/
def load_fixture (c : Client) (endpoint : String)
    (params : Option (List (String × JVal))) : Option JVal :=
  alookup (fixtureName endpoint params) c.jsonFixtures

/-- Embedding of `ONSClient._load_csv_fixture`. The source looks the fixture
up by `dataset_key` alone (file `ons_{key}.csv`); the `filename` argument is
accepted and ignored, exactly as in the source. -/
def load_csv_fixture (c : Client) (dataset_key : String) (_filename : String) :
    Option (List CsvRecord) :=
  alookup ("ons_" ++ dataset_key) c.csvFixtures

/-- Embedding of `ONSClient._make_request`: in fixture mode, return the
fixture or raise `Fixture not found ...`; in live mode, wrap any transport or
JSON-decoding failure in a raised `Erro ao acessar API do ONS` exception.
The embedded messages abridge the Python f-strings. -/
def make_request (c : Client) (net : Net) (endpoint : String)
    (params : Option (List (String × JVal))) : Except String JVal :=
  if c.use_fixtures then
    match load_fixture c endpoint params with
    | some j => .ok j
    | none => .error ("Fixture not found for endpoint: " ++ endpoint)
  else
    match net.api endpoint params with
    | .ok j => .ok j
    | .error e => .error ("Erro ao acessar API do ONS: " ++ e)

/-- The `ONSClient.DATASET_PATHS` table. -/
def DATASET_PATHS : List (String × String) :=
  [("ear_subsistema", "ear_subsistema_di"),
   ("ear_reservatorio", "ear_reservatorio_di"),
   ("ear_bacia", "ear_bacia_di"),
   ("carga_energia", "carga_energia"),
   ("cmo_semihorario", "cmo_tm"),
   ("reservatorio", "reservatorio"),
   ("geracao", "geracao_usina")]

/-- The `ONSClient.S3_BASE_URL` constant. -/
def S3_BASE_URL : String := "https://ons-dl-prod-opendata.s3.amazonaws.com/dataset"

/-- The S3 URL built by `ONSClient.download_csv_data` (`if year:` is falsy for
both `None` and `0`, as in Python). -/
def s3Url (dataset_key filename : String) (year : Option ℤ) : String :=
  let dataset_path := (alookup dataset_key DATASET_PATHS).getD dataset_key
  let full_filename :=
    match year with
    | some y => if y = 0 then filename ++ ".csv" else filename ++ "_" ++ toString y ++ ".csv"
    | none => filename ++ ".csv"
  S3_BASE_URL ++ "/" ++ dataset_path ++ "/" ++ full_filename

/-- Embedding of `ONSClient.download_csv_data`: in fixture mode a matching
fixture is returned, but a missing fixture falls through to the live S3 fetch;
a transport or decode failure, and a decoded body with zero data rows, both
yield `none`. -/
def download_csv_data (c : Client) (net : Net) (dataset_key filename : String)
    (year : Option ℤ) : Option (List CsvRecord) :=
  let viaNet :=
    match net.s3 (s3Url dataset_key filename year) with
    | .ok body =>
      let records := csvParse body
      if records.isEmpty then none else some records
    | .error _ => none
  if c.use_fixtures then
    match load_csv_fixture c dataset_key filename with
    | some fx => some fx
    | none => viaNet
  else viaNet

/-- Embedding of `ONSClient.get_ear_subsistema`; `curYear` models
`datetime.now().year`. -/
def get_ear_subsistema (c : Client) (net : Net) (curYear : ℤ) (year : Option ℤ) :
    Option (List CsvRecord) :=
  download_csv_data c net "ear_subsistema" "EAR_DIARIO_SUBSISTEMA" (some (year.getD curYear))

/-- Embedding of `ONSClient.get_carga_energia`; `curYear` models
`datetime.now().year`. -/
def get_carga_energia (c : Client) (net : Net) (curYear : ℤ) (year : Option ℤ) :
    Option (List CsvRecord) :=
  download_csv_data c net "carga_energia" "CARGA_ENERGIA" (some (year.getD curYear))

/-- One region entry of a reservoir snapshot (`level_percent`,
`capacity_mwmed`, `timestamp`, `status`). The timestamp is kept as a dynamic
value: the bulk path stores a CSV date string, the catalog path stores
whatever the record carried. -/
structure ResEntry where
  level_percent : ℚ
  capacity_mwmed : ℤ
  timestamp : JVal
  status : String

/-- One region entry of a consumption snapshot. -/
structure ConsRegion where
  load_mw : ℚ
  percent : ℚ

/-- The consumption result dict built by `_parse_carga_records` /
`_extract_consumption_values`. -/
structure ConsData where
  current_load_mw : ℤ
  forecast_load_mw : ℤ
  timestamp : JVal
  regions : List (String × ConsRegion)

/-- The `subsystem_mapping` table shared by `_parse_ear_records` and
`_parse_carga_records`. -/
def subsystem_mapping : List (String × String) :=
  [("SE", "southeast"), ("SUDESTE", "southeast"),
   ("S", "south"), ("SUL", "south"),
   ("NE", "northeast"), ("NORDESTE", "northeast"),
   ("N", "north"), ("NORTE", "north")]

/-- The fixed per-region capacity constants (MWmed) of `client.py`. -/
def capacities : List (String × ℤ) :=
  [("southeast", 208355), ("south", 19768), ("northeast", 56468), ("north", 13489)]

/-- Canonical-region key of a bulk CSV record: the first truthy of
`id_subsistema` / `nom_subsistema`, uppercased and stripped, looked up
exactly in `subsystem_mapping`. -/
def recordRegion (r : CsvRecord) : Option String :=
  alookup ((firstTruthy [rget r "id_subsistema", rget r "nom_subsistema"]).toUpper.trim)
    subsystem_mapping

/-- The inner `parse_date_str` helper of both bulk parsers. -/
def parse_date_str (s : String) : String :=
  if s = "" then "" else s.trim

/-- Normalized date of a bulk CSV record, over the parser's date-column
chain (`""` when no recognizable date column is present). -/
def dateOf (dateCols : List String) (r : CsvRecord) : String :=
  parse_date_str (firstTruthy (dateCols.map (fun k => rget r k)))

/-- The latest-record selection loop shared verbatim by `_parse_ear_records`
and `_parse_carga_records` (they differ only in the date-column chain):
per region, a record whose date is `>=` the stored one replaces it. -/
def latestByRegion (dateCols : List String) (records : List CsvRecord) :
    List (String × (String × CsvRecord)) :=
  records.foldl (fun acc record =>
    match recordRegion record with
    | none => acc
    | some region_key =>
      let date_str := dateOf dateCols record
      let current_date := ((alookup region_key acc).map (fun dr => dr.1)).getD ""
      if current_date ≤ date_str then dictInsert acc region_key (date_str, record)
      else acc) []

/-- The bulk-tier value parse shared by both bulk parsers: scan candidate
columns; for a present and truthy value, replace the comma decimal separator
with a dot and parse; a parse failure moves on to the next candidate column. -/
def tryCols (r : CsvRecord) : List String → Option ℚ
  | [] => none
  | col :: rest =>
    if rHasTruthy r col then
      match parseFloatStr (((rget r col).getD "").replace "," ".") with
      | some v => some v
      | none => tryCols r rest
    else tryCols r rest

/-- Embedding of `ONSClient._parse_ear_records`. -/
def parse_ear_records (records : List CsvRecord) : Option (List (String × ResEntry)) :=
  if records.isEmpty then none
  else
    let latest := latestByRegion ["din_instante", "dat_referencia", "data"] records
    let result := latest.foldl (fun res rd =>
      let record := rd.2.2
      let ear_percent :=
        match tryCols record
            ["val_earverif_percentual", "ear_verif_percentual", "val_ear_percentual"] with
        | some v => some v
        | none =>
          match tryCols record ["val_earverif_mwmes", "ear_verif_subsistema"],
                tryCols record ["val_eararmazenavel_mwmes", "ear_max_subsistema"] with
          | some ear_verif, some ear_max =>
            if 0 < ear_max then some ((ear_verif / ear_max) * 100) else none
          | _, _ => none
      match ear_percent with
      | some p =>
        dictInsert res rd.1
          ⟨round1 p, (alookup rd.1 capacities).getD 0, .str rd.2.1,
           if 50 < p then "normal" else "attention"⟩
      | none => res) []
    if result.isEmpty then none else some result

/-- Loop body of `_parse_carga_records`: one region's latest record
contributes its parsed load to the running total, the region dict and the
result timestamp. -/
def cargaStep (st : ℚ × List (String × ConsRegion) × JVal)
    (rd : String × (String × CsvRecord)) : ℚ × List (String × ConsRegion) × JVal :=
  match tryCols rd.2.2 ["val_cargaenergiamwmed", "val_carga", "carga"] with
  | some load_mw =>
    (st.1 + load_mw, dictInsert st.2.1 rd.1 (⟨load_mw, 0⟩ : ConsRegion), JVal.str rd.2.1)
  | none => st

/-- The result-assembly epilogue shared verbatim by `_parse_carga_records` and
`_extract_consumption_values`: when the total load is positive, fill in the
percentages (1-decimal round of the load share), `int(total_load)` and
`int(total_load * 1.03)`; return `None` for an empty region dict. -/
def consAssemble (ts : JVal) (st : ℚ × List (String × ConsRegion)) : Option ConsData :=
  let total := st.1
  let result_regions :=
    if 0 < total then
      st.2.map (fun kv =>
        (kv.1, (⟨kv.2.load_mw, round1 ((kv.2.load_mw / total) * 100)⟩ : ConsRegion)))
    else st.2
  let cur : ℤ := if 0 < total then pyInt total else 0
  let fore : ℤ := if 0 < total then pyInt (total * (103 / 100)) else 0
  if result_regions.isEmpty then none else some ⟨cur, fore, ts, result_regions⟩

/-- Embedding of `ONSClient._parse_carga_records`. -/
def parse_carga_records (records : List CsvRecord) : Option ConsData :=
  if records.isEmpty then none
  else
    let step := (latestByRegion ["din_instante", "data"] records).foldl cargaStep
      ((0 : ℚ), ([] : List (String × ConsRegion)), JVal.str "")
    consAssemble step.2.2 (step.1, step.2.1)

/-- Embedding of `ONSClient.get_reservoir_data_from_s3`. -/
def get_reservoir_data_from_s3 (c : Client) (net : Net) (curYear : ℤ) :
    Option (List (String × ResEntry)) :=
  let records0 := get_ear_subsistema c net curYear none
  let records :=
    match records0 with
    | some rs => if rs.isEmpty then get_ear_subsistema c net curYear (some (curYear - 1)) else some rs
    | none => get_ear_subsistema c net curYear (some (curYear - 1))
  match records with
  | some rs => if rs.isEmpty then none else parse_ear_records rs
  | none => none

/-- Embedding of `ONSClient.get_consumption_data_from_s3`. -/
def get_consumption_data_from_s3 (c : Client) (net : Net) (curYear : ℤ) :
    Option ConsData :=
  let records0 := get_carga_energia c net curYear none
  let records :=
    match records0 with
    | some rs => if rs.isEmpty then get_carga_energia c net curYear (some (curYear - 1)) else some rs
    | none => get_carga_energia c net curYear (some (curYear - 1))
  match records with
  | some rs => if rs.isEmpty then none else parse_carga_records rs
  | none => none

/-- The `region_mappings` alias table of `_extract_reservoir_values` /
`_extract_consumption_values`, most specific alias first. -/
def region_mappings : List (String × List String) :=
  [("southeast", ["sudeste", "se_co", "seco", "se"]),
   ("south", ["sul", "s"]),
   ("northeast", ["nordeste", "ne"]),
   ("north", ["norte", "n"])]

/-- One field name matches one alias: the lowercased, stripped field equals
the alias exactly or ends with underscore-alias. -/
def aliasMatch (field_lower a0 : String) : Bool :=
  field_lower == a0 || field_lower.endsWith ("_" ++ a0)

/-- The inner alias scan of the extraction loop: walk the alias list with its
running index; an alias that matches and strictly improves on the current
best priority fires the update (and breaks); any other alias moves on. -/
def scanAliases (field_lower : String) (best : Option Nat) :
    List String → Nat → Option Nat
  | [], _ => none
  | a0 :: rest, p =>
    if aliasMatch field_lower a0 &&
        (match best with | none => true | some b => decide (p < b)) then
      some p
    else scanAliases field_lower best rest (p + 1)

/-- The per-region best-match loop of `_extract_reservoir_values` /
`_extract_consumption_values` over the record's field names, returning the
chosen field together with the alias priority it matched at. -/
def best_match (aliases : List String) (fields : List String) : Option (String × Nat) :=
  fields.foldl (fun best field_name =>
    match scanAliases (field_name.toLower.trim) (best.map (fun fp => fp.2)) aliases 0 with
    | some p => some (field_name, p)
    | none => best) none

/-- Embedding of `ONSClient._extract_reservoir_values` on a sampled dynamic
records value. Raises exactly where Python would (indexing/keys on malformed
records); the per-value `float()` failures are caught and skip the region. -/
def extract_reservoir_values (records : JVal) :
    Except String (Option (List (String × ResEntry))) :=
  match (if records.truthy then pyIndex0 records else pure (JVal.obj [])) with
  | .error e => .error e
  | .ok (.obj kvs) =>
    let fields := kvs.map (fun kv => kv.1)
    let result := region_mappings.foldl (fun res rm =>
      match best_match rm.2 fields with
      | some fp =>
        match (alookup fp.1 kvs).getD .null with
        | .null => res
        | v =>
          match pyFloatJ v with
          | .ok level_percent =>
            dictInsert res rm.1
              ⟨level_percent, (alookup rm.1 capacities).getD 0,
               (alookup "data" kvs).getD ((alookup "timestamp" kvs).getD (.str "")),
               if 50 < level_percent then "normal" else "attention"⟩
          | .error _ => res
      | none => res) []
    .ok (if result.isEmpty then none else some result)
  | .ok _ => Except.error "AttributeError: keys on non-dict"

/-- Loop body of `_extract_consumption_values` over the four region mappings:
the best-matching field's value, when parseable, contributes its load to the
running total and the region dict. -/
def consStep (kvs : List (String × JVal)) (st : ℚ × List (String × ConsRegion))
    (rm : String × List String) : ℚ × List (String × ConsRegion) :=
  match best_match rm.2 (kvs.map (fun kv => kv.1)) with
  | some fp =>
    match (alookup fp.1 kvs).getD .null with
    | .null => st
    | v =>
      match pyFloatJ v with
      | .ok load_mw =>
        (st.1 + load_mw, dictInsert st.2 rm.1 (⟨load_mw, 0⟩ : ConsRegion))
      | .error _ => st
  | none => st

/-- Embedding of `ONSClient._extract_consumption_values` on a sampled dynamic
records value. -/
def extract_consumption_values (records : JVal) : Except String (Option ConsData) :=
  match (if records.truthy then pyIndex0 records else pure (JVal.obj [])) with
  | .error e => .error e
  | .ok (.obj kvs) =>
    let ts := (alookup "data" kvs).getD ((alookup "timestamp" kvs).getD (.str ""))
    .ok (consAssemble ts
      (region_mappings.foldl (consStep kvs) ((0 : ℚ), ([] : List (String × ConsRegion)))))
  | .ok _ => Except.error "AttributeError: keys on non-dict"

/-- Embedding of `ONSClient.get_dataset_resource_data`: every internal failure
is caught and converted to `None`. -/
def get_dataset_resource_data (c : Client) (net : Net) (resource_id : JVal)
    (limit : ℚ) : Option JVal :=
  match make_request c net "datastore_search"
      (some [("resource_id", resource_id), ("limit", .num limit)]) with
  | .error _ => none
  | .ok result =>
    match pyGetD result "success" .null with
    | .error _ => none
    | .ok s =>
      if s.truthy then
        match pyGetD result "result" (.obj []) with
        | .error _ => none
        | .ok r1 =>
          match pyGetD r1 "records" (.arr []) with
          | .error _ => none
          | .ok r2 => some r2
      else none

/-- Embedding of `ONSClient.search_datasets`: every internal failure is caught
and converted to the empty list; otherwise the raw `result.results` value of
the envelope is returned as-is. -/
def search_datasets (c : Client) (net : Net) (query : String) : JVal :=
  match make_request c net "package_search" (some [("q", .str query)]) with
  | .error _ => .arr []
  | .ok result =>
    match pyGetD result "success" .null with
    | .error _ => .arr []
    | .ok s =>
      if s.truthy then
        match pyGetD result "result" (.obj []) with
        | .error _ => .arr []
        | .ok r1 =>
          match pyGetD r1 "results" (.arr []) with
          | .error _ => .arr []
          | .ok r2 => r2
      else .arr []

/-- The resource scan shared verbatim by `parse_reservoir_data` and
`parse_consumption_data` (the two methods duplicate this loop, differing only
in domain keywords and extraction function): on the first CSV/JSON resource
whose name contains a keyword and whose id is truthy and whose sampled
records are nonempty, return the extractor's outcome — even when that outcome
is `none` — stopping the whole scan. -/
def scanResources (c : Client) (net : Net) (keywords : List String)
    (extract : JVal → Except String (Option α)) :
    List JVal → Except String (Option (Option α))
  | [] => .ok none
  | r :: rest =>
    match pyGetD r "name" (.str "") with
    | .error e => .error e
    | .ok nameJ =>
      match pyLower nameJ with
      | .error e => .error e
      | .ok name =>
        match pyGetD r "format" (.str "") with
        | .error e => .error e
        | .ok fmtJ =>
          match pyUpper fmtJ with
          | .error e => .error e
          | .ok fmt =>
            if (fmt == "CSV" || fmt == "JSON") &&
                keywords.any (fun k => strContains name k) then
              match pyGetD r "id" .null with
              | .error e => .error e
              | .ok rid =>
                if rid.truthy then
                  match get_dataset_resource_data c net rid 10 with
                  | some recs =>
                    if recs.truthy then
                      match pyLen recs with
                      | .error e => .error e
                      | .ok n =>
                        if 0 < n then
                          match extract recs with
                          | .error e => .error e
                          | .ok e0 => .ok (some e0)
                        else scanResources c net keywords extract rest
                    else scanResources c net keywords extract rest
                  | none => scanResources c net keywords extract rest
                else scanResources c net keywords extract rest
            else scanResources c net keywords extract rest

/-- The dataset scan shared verbatim by `parse_reservoir_data` and
`parse_consumption_data`. -/
def parseDatasets (c : Client) (net : Net) (keywords : List String)
    (extract : JVal → Except String (Option α)) :
    List JVal → Except String (Option α)
  | [] => .ok none
  | d :: rest =>
    match pyGetD d "resources" (.arr []) with
    | .error e => .error e
    | .ok resources =>
      match pyIter resources with
      | .error e => .error e
      | .ok rs =>
        match scanResources c net keywords extract rs with
        | .error e => .error e
        | .ok (some e0) => .ok e0
        | .ok none => parseDatasets c net keywords extract rest

/-- Embedding of `ONSClient.parse_reservoir_data`. -/
def parse_reservoir_data (c : Client) (net : Net) (datasets : JVal) :
    Except String (Option (List (String × ResEntry))) :=
  if datasets.truthy then
    match pyIter datasets with
    | .error e => .error e
    | .ok ds =>
      parseDatasets c net ["reservatorio", "ear", "armazenamento"] extract_reservoir_values ds
  else .ok none

/-- Embedding of `ONSClient.parse_consumption_data`. -/
def parse_consumption_data (c : Client) (net : Net) (datasets : JVal) :
    Except String (Option ConsData) :=
  if datasets.truthy then
    match pyIter datasets with
    | .error e => .error e
    | .ok ds =>
      parseDatasets c net ["carga", "demanda", "consumo", "load"] extract_consumption_values ds
  else .ok none

/-- A reservoir snapshot as returned by `EnergyDataFetcher.get_reservoir_data`:
the per-region entries plus the provenance keys the fetcher adds. -/
structure ResSnapshot where
  regions : List (String × ResEntry)
  data_source : String
  note : String

/-- A consumption snapshot as returned by
`EnergyDataFetcher.get_grid_consumption`. -/
structure ConsSnapshot where
  data : ConsData
  data_source : String
  note : String

/-- Result of a fetcher call: either a snapshot dict, or the bare error dict
built by the fetcher's top-level `except` handler. -/
inductive FetchResult (α : Type) where
  | snap (s : α)
  | errorDict (msg : String)

/-- The static fallback reservoir regions of
`EnergyDataFetcher.get_reservoir_data`; `now` models
`datetime.now().isoformat()`. -/
def fallbackReservoirRegions (now : String) : List (String × ResEntry) :=
  [("southeast", ⟨65.4, 208355, .str now, "normal"⟩),
   ("south", ⟨58.2, 19768, .str now, "normal"⟩),
   ("northeast", ⟨42.8, 56468, .str now, "attention"⟩),
   ("north", ⟨71.3, 13489, .str now, "normal"⟩)]

/-- The static fallback consumption data of
`EnergyDataFetcher.get_grid_consumption`. -/
def fallbackConsumption (now : String) : ConsData :=
  ⟨68542, 70125, .str now,
   [("southeast", ⟨38245, 55.8⟩), ("south", ⟨9876, 14.4⟩),
    ("northeast", ⟨12543, 18.3⟩), ("north", ⟨7878, 11.5⟩)]⟩

/-- The CKAN-tier portion of `EnergyDataFetcher.get_reservoir_data`: search,
accessibility test (`len(datasets) > 0`), and — only when accessible — the
parse. Returns the accessibility flag with the parse outcome. -/
def reservoir_catalog (c : Client) (net : Net) :
    Except String (Bool × Option (List (String × ResEntry))) :=
  let datasets := search_datasets c net "reservatorio"
  match pyLen datasets with
  | .error e => .error e
  | .ok n =>
    let ons_accessible := decide (0 < n)
    match (if ons_accessible then parse_reservoir_data c net datasets else .ok none) with
    | .error e => .error e
    | .ok parsed => .ok (ons_accessible, parsed)

/-- The CKAN-tier portion of `EnergyDataFetcher.get_grid_consumption`. -/
def consumption_catalog (c : Client) (net : Net) :
    Except String (Bool × Option ConsData) :=
  let datasets := search_datasets c net "carga"
  match pyLen datasets with
  | .error e => .error e
  | .ok n =>
    let ons_accessible := decide (0 < n)
    match (if ons_accessible then parse_consumption_data c net datasets else .ok none) with
    | .error e => .error e
    | .ok parsed => .ok (ons_accessible, parsed)

/-- The body of `EnergyDataFetcher.get_reservoir_data` inside its `try`:
S3 tier, then CKAN tier, then the static fallback. `curYear` and `now` model
the wall clock. -/
def get_reservoir_data_exc (c : Client) (net : Net) (curYear : ℤ) (now : String) :
    Except String ResSnapshot :=
  match get_reservoir_data_from_s3 c net curYear with
  | some regs => .ok ⟨regs, "ONS S3", "Data retrieved directly from ONS S3 bucket"⟩
  | none =>
    match reservoir_catalog c net with
    | .error e => .error e
    | .ok acc_parsed =>
      match acc_parsed.2 with
      | some regs => .ok ⟨regs, "ONS API", "Data successfully retrieved and parsed from ONS"⟩
      | none =>
        .ok ⟨fallbackReservoirRegions now, "Fallback data",
          if acc_parsed.1 then "ONS API accessible but data format not recognized"
          else "ONS API temporarily unavailable"⟩

/-- Embedding of `EnergyDataFetcher.get_reservoir_data`: the whole body runs
inside `try`, and the `except` handler turns any raised exception into the
bare dict with a single `error` key. -/
def fetch_reservoir_data (c : Client) (net : Net) (curYear : ℤ) (now : String) :
    FetchResult ResSnapshot :=
  match get_reservoir_data_exc c net curYear now with
  | .ok s => .snap s
  | .error e => .errorDict e

/-- The body of `EnergyDataFetcher.get_grid_consumption` inside its `try`. -/
def get_grid_consumption_exc (c : Client) (net : Net) (curYear : ℤ) (now : String) :
    Except String ConsSnapshot :=
  match get_consumption_data_from_s3 c net curYear with
  | some cd => .ok ⟨cd, "ONS S3", "Data retrieved directly from ONS S3 bucket"⟩
  | none =>
    match consumption_catalog c net with
    | .error e => .error e
    | .ok acc_parsed =>
      match acc_parsed.2 with
      | some cd => .ok ⟨cd, "ONS API", "Data successfully retrieved and parsed from ONS"⟩
      | none =>
        .ok ⟨fallbackConsumption now, "Fallback data",
          if acc_parsed.1 then "ONS API accessible but data format not recognized"
          else "ONS API temporarily unavailable"⟩

/-- Embedding of `EnergyDataFetcher.get_grid_consumption`. -/
def fetch_grid_consumption (c : Client) (net : Net) (curYear : ℤ) (now : String) :
    FetchResult ConsSnapshot :=
  match get_grid_consumption_exc c net curYear now with
  | .ok s => .snap s
  | .error e => .errorDict e

/-- A live client: no fixture substitution. -/
def cLive : Client := ⟨false, [], []⟩

/-- A fixture-mode client with an empty fixture store. -/
def cFix : Client := ⟨true, [], []⟩

/-- A transport whose every call fails. -/
def netDown : Net :=
  ⟨fun _ _ => .error "connection error", fun _ => .error "connection error"⟩

/-- A transport whose S3 store always serves a tiny two-column CSV body. -/
def netAB : Net := ⟨fun _ _ => .error "connection error", fun _ => .ok "a;b\n1;2"⟩

/-- A transport whose S3 store always serves a one-row load CSV body. -/
def netCarga : Net :=
  ⟨fun _ _ => .error "connection error",
   fun _ => .ok "id_subsistema;din_instante;val_carga\nSE;2024-01-01;100"⟩

/-- A transport whose S3 store always serves a header-only CSV body. -/
def netHeaderOnly : Net :=
  ⟨fun _ _ => .error "connection error", fun _ => .ok "h1;h2\n"⟩

/-- C9: when the bulk structured-file fetch succeeds over the network but the
decoded semicolon-delimited body contains zero data rows, `download_csv_data`
returns `none` — the same outcome as a transport failure, so an empty file is
indistinguishable at the interface from a failed download. -/
theorem c9_empty_body_returns_none (c : Client) (net net2 : Net)
    (dataset_key filename : String) (year : Option ℤ) (body e : String)
    (hfx : c.use_fixtures = false)
    (hok : net.s3 (s3Url dataset_key filename year) = .ok body)
    (hempty : csvParse body = [])
    (herr : net2.s3 (s3Url dataset_key filename year) = .error e) :
    download_csv_data c net dataset_key filename year = none ∧
    download_csv_data c net2 dataset_key filename year = none := by
  constructor <;> simp [download_csv_data, hfx, hok, hempty, herr]

/-- Witness for `c9_empty_body_returns_none`: a header-only body over a live
client. -/
theorem c9_witness :
    cLive.use_fixtures = false ∧
    netHeaderOnly.s3 (s3Url "k" "f" none) = .ok "h1;h2\n" ∧
    csvParse "h1;h2\n" = [] ∧
    netDown.s3 (s3Url "k" "f" none) = .error "connection error" ∧
    download_csv_data cLive netHeaderOnly "k" "f" none = none ∧
    download_csv_data cLive netDown "k" "f" none = none := by
  refine ⟨rfl, rfl, by with_unfolding_all decide, rfl, ?_, ?_⟩ <;>
  · have h := c9_empty_body_returns_none cLive netHeaderOnly netDown "k" "f" none
      "h1;h2\n" "connection error" rfl rfl (by with_unfolding_all decide) rfl
    first
    | exact h.1
    | exact h.2

/-- C4 (counterexample): with fixture-substitution mode active and no fixture
matching the requested dataset, `download_csv_data` does **not** skip the
network call and return `none`: it performs the live S3 fetch and returns the
decoded records. -/
theorem c4_counterexample :
    cFix.use_fixtures = true ∧
    load_csv_fixture cFix "k" "f" = none ∧
    download_csv_data cFix netAB "k" "f" none = some [[("a", some "1"), ("b", some "2")]] := by
  refine ⟨rfl, rfl, ?_⟩
  with_unfolding_all decide

/-- C4 (amended): with fixture mode active, a matching fixture is returned
without touching the network, but a **missing** fixture makes
`download_csv_data` fall through to the live network path — it behaves
exactly like the fixtures-off client on the same transport, rather than
returning `none`. -/
theorem c4_missing_fixture_falls_through (c : Client) (net : Net)
    (key file : String) (year : Option ℤ)
    (hfx : c.use_fixtures = true)
    (hmiss : load_csv_fixture c key file = none) :
    download_csv_data c net key file year =
      download_csv_data ⟨false, c.jsonFixtures, c.csvFixtures⟩ net key file year := by
  simp [download_csv_data, hfx, hmiss]

/-- Witness for `c4_missing_fixture_falls_through`. -/
theorem c4_witness :
    cFix.use_fixtures = true ∧
    load_csv_fixture cFix "k" "f" = none ∧
    download_csv_data cFix netAB "k" "f" none =
      download_csv_data ⟨false, cFix.jsonFixtures, cFix.csvFixtures⟩ netAB "k" "f" none :=
  ⟨rfl, rfl,
   c4_missing_fixture_falls_through cFix netAB "k" "f" none rfl rfl⟩

/-- C5 (counterexample): on the bulk CSV path, fixture mode with a missing
fixture does **not** raise — the call completes normally and silently
degrades to the live network fetch, returning its data. -/
theorem c5_counterexample :
    cFix.use_fixtures = true ∧
    load_csv_fixture cFix "carga_energia" "CARGA_ENERGIA" = none ∧
    download_csv_data cFix netCarga "carga_energia" "CARGA_ENERGIA" none =
      some [[("id_subsistema", some "SE"), ("din_instante", some "2024-01-01"),
             ("val_carga", some "100")]] := by
  refine ⟨rfl, rfl, ?_⟩
  with_unfolding_all decide

/-- C5 (amended): with fixture mode enabled and no matching fixture, only the
catalog metadata primitive `_make_request` raises (`Fixture not found`); the
bulk CSV path does not raise and instead proceeds with the live network
download, behaving like the fixtures-off client. -/
theorem c5_fixture_missing_raises_only_in_make_request (c : Client) (net : Net)
    (ep : String) (ps : Option (List (String × JVal)))
    (key file : String) (year : Option ℤ)
    (hfx : c.use_fixtures = true)
    (hmiss : load_fixture c ep ps = none)
    (hmiss2 : load_csv_fixture c key file = none) :
    make_request c net ep ps = .error ("Fixture not found for endpoint: " ++ ep) ∧
    download_csv_data c net key file year =
      download_csv_data ⟨false, c.jsonFixtures, c.csvFixtures⟩ net key file year := by
  constructor
  · simp [make_request, hfx, hmiss]
  · exact c4_missing_fixture_falls_through c net key file year hfx hmiss2

theorem alookup_map_replace_self (tl : List (String × α)) (k : String) (v : α)
    (h : (tl.any fun kv => decide (kv.1 = k)) = true) :
    alookup k (tl.map (fun kv => if kv.1 = k then (k, v) else kv)) = some v := by
  induction tl with
  | nil => simp at h
  | cons hd tl ih =>
    simp only [List.any_cons, Bool.or_eq_true, decide_eq_true_eq] at h
    by_cases hk : hd.1 = k
    · simp [List.map_cons, if_pos hk, alookup]
    · simp only [List.map_cons, if_neg hk, alookup, if_neg hk]
      exact ih (h.resolve_left hk)

theorem alookup_map_replace_ne (tl : List (String × α)) (k k2 : String) (v : α)
    (h : k2 ≠ k) :
    alookup k2 (tl.map (fun kv => if kv.1 = k then (k, v) else kv)) = alookup k2 tl := by
  induction tl with
  | nil => simp
  | cons hd tl ih =>
    by_cases hk : hd.1 = k
    · have hne : ¬hd.1 = k2 := by rw [hk]; exact fun he => h he.symm
      simp only [List.map_cons, if_pos hk, alookup, if_neg (fun he : k = k2 => h he.symm),
        if_neg hne]
      exact ih
    · simp only [List.map_cons, if_neg hk, alookup]
      by_cases h2 : hd.1 = k2
      · simp [if_pos h2]
      · simp only [if_neg h2]
        exact ih

theorem alookup_append_single (tl : List (String × α)) (k k2 : String) (v : α) :
    alookup k2 (tl ++ [(k, v)]) =
      ((alookup k2 tl).orElse (fun _ => if k = k2 then some v else none)) := by
  induction tl with
  | nil => simp [alookup]
  | cons hd tl ih =>
    simp only [List.cons_append, alookup]
    by_cases h2 : hd.1 = k2
    · simp [if_pos h2]
    · simp only [if_neg h2]
      exact ih

theorem alookup_dictInsert_self (d : List (String × α)) (k : String) (v : α) :
    alookup k (dictInsert d k v) = some v := by
  unfold dictInsert
  split
  next h => exact alookup_map_replace_self d k v h
  next h =>
    rw [alookup_append_single]
    have hnone : alookup k d = none := by
      induction d with
      | nil => simp [alookup]
      | cons hd tl ih =>
        simp only [List.any_cons, Bool.or_eq_true, decide_eq_true_eq, not_or] at h
        simp only [alookup, if_neg h.1]
        exact ih (by simpa using h.2)
    simp [hnone]

theorem alookup_dictInsert_ne (d : List (String × α)) (k k2 : String) (v : α)
    (h : k2 ≠ k) : alookup k2 (dictInsert d k v) = alookup k2 d := by
  unfold dictInsert
  split
  next => exact alookup_map_replace_ne d k k2 v h
  next =>
    rw [alookup_append_single]
    rcases h0 : alookup k2 d with _ | w
    · simp [if_neg (fun he : k = k2 => h he.symm)]
    · simp

theorem dictInsert_keys_mem (d : List (String × α)) (k : String) (v : α) :
    ∀ x ∈ (dictInsert d k v).map Prod.fst, x ∈ d.map Prod.fst ∨ x = k := by
  unfold dictInsert
  split
  next =>
    intro x hx
    simp only [List.map_map, List.mem_map, Function.comp] at hx
    obtain ⟨kv, hkv, hfst⟩ := hx
    by_cases h0 : kv.1 = k
    · right
      rw [if_pos h0] at hfst
      exact hfst.symm
    · left
      rw [if_neg h0] at hfst
      exact List.mem_map.mpr ⟨kv, hkv, hfst⟩
  next =>
    intro x hx
    simp only [List.map_append, List.mem_append, List.map_cons, List.map_nil,
      List.mem_singleton] at hx
    exact hx

theorem dictInsert_keys_nodup (d : List (String × α)) (k : String) (v : α)
    (h : (d.map Prod.fst).Nodup) : ((dictInsert d k v).map Prod.fst).Nodup := by
  unfold dictInsert
  split
  next =>
    have heq : (d.map (fun kv => if kv.1 = k then (k, v) else kv)).map Prod.fst
        = d.map Prod.fst := by
      rw [List.map_map]
      apply List.map_congr_left
      intro kv _
      by_cases h0 : kv.1 = k <;> simp [h0]
    rw [heq]
    exact h
  next hno =>
    simp only [List.any_eq_true, decide_eq_true_eq, not_exists, not_and] at hno
    simp only [List.map_append, List.map_cons, List.map_nil]
    rw [List.nodup_append]
    refine ⟨h, List.nodup_singleton k, ?_⟩
    intro x hx
    simp only [List.mem_singleton]
    intro hk
    simp only [List.mem_map] at hx
    obtain ⟨kv, hkv, hfst⟩ := hx
    exact hno kv hkv (by rw [hfst, hk])

theorem empty_string_le (s : String) : "" ≤ s := by
  by_contra h
  have hlt : s < "" := lt_of_not_le h
  rw [String.lt_iff_toList_lt, String.toList_empty] at hlt
  generalize s.toList = l at hlt
  cases hlt

theorem foldl_max_init_le {α : Type} [LinearOrder α] (l : List α) (a : α) :
    a ≤ l.foldl max a := by
  induction l generalizing a with
  | nil => exact le_refl a
  | cons b l ih => exact le_trans (le_max_left a b) (ih (max a b))

theorem foldl_max_mem_le {α : Type} [LinearOrder α] (l : List α) (x : α)
    (hx : x ∈ l) : ∀ a, x ≤ l.foldl max a := by
  induction l with
  | nil => cases hx
  | cons b l ih =>
    intro a
    rcases List.mem_cons.mp hx with rfl | hx2
    · exact le_trans (le_max_right a x) (foldl_max_init_le l (max a x))
    · exact ih hx2 (max a b)

theorem foldl_max_choice {α : Type} [LinearOrder α] (l : List α) :
    ∀ a, l.foldl max a = a ∨ l.foldl max a ∈ l := by
  induction l with
  | nil => intro a; exact Or.inl rfl
  | cons b l ih =>
    intro a
    rcases ih (max a b) with h | h
    · rcases max_choice a b with hm | hm
      · exact Or.inl (by rw [List.foldl_cons, h, hm])
      · exact Or.inr (by rw [List.foldl_cons, h, hm]; exact List.mem_cons_self b l)
    · exact Or.inr (List.mem_cons_of_mem b h)

/-- Greatest element of a list of strings under `foldl max ""` is attained. -/
theorem foldl_max_attained (l : List String) (h : l ≠ []) : l.foldl max "" ∈ l := by
  rcases foldl_max_choice l "" with h0 | h0
  · match l, h with
    | x :: xs, _ =>
      have hx : x ≤ (x :: xs).foldl max "" :=
        foldl_max_mem_le (x :: xs) x (List.mem_cons_self x xs) ""
      rw [h0] at hx ⊢
      have : x = "" := le_antisymm hx (empty_string_le x)
      rw [← this]
      exact List.mem_cons_self x xs
  · exact h0

/-- Per-region projection of one step of the latest-record loop. -/
def latestStep (dateCols : List String) (region : String)
    (st : Option (String × CsvRecord)) (record : CsvRecord) :
    Option (String × CsvRecord) :=
  if recordRegion record = some region then
    if ((st.map (fun dr => dr.1)).getD "") ≤ dateOf dateCols record then
      some (dateOf dateCols record, record)
    else st
  else st

theorem latestByRegion_foldl_proj (cols : List String) (region : String) :
    ∀ (rs : List CsvRecord) (acc : List (String × (String × CsvRecord))),
      alookup region (rs.foldl (fun acc record =>
        match recordRegion record with
        | none => acc
        | some region_key =>
          let date_str := dateOf cols record
          let current_date := ((alookup region_key acc).map (fun dr => dr.1)).getD ""
          if current_date ≤ date_str then dictInsert acc region_key (date_str, record)
          else acc) acc) =
      rs.foldl (latestStep cols region) (alookup region acc) := by
  intro rs
  induction rs with
  | nil => intro acc; rfl
  | cons r rest ih =>
    intro acc
    rw [List.foldl_cons, List.foldl_cons, ih]
    congr 1
    unfold latestStep
    rcases hr : recordRegion r with _ | rk
    · simp only [hr]
      rw [if_neg (by simp)]
    · simp only [hr]
      by_cases hreg : rk = region
      · subst hreg
        rw [if_pos rfl]
        by_cases hle : ((alookup rk acc).map (fun dr => dr.1)).getD "" ≤ dateOf cols r
        · rw [if_pos hle, if_pos hle, alookup_dictInsert_self]
        · rw [if_neg hle, if_neg hle]
      · rw [if_neg (show ¬(some rk = some region) by simp [hreg])]
        by_cases hle : ((alookup rk acc).map (fun dr => dr.1)).getD "" ≤ dateOf cols r
        · rw [if_pos hle, alookup_dictInsert_ne _ _ _ _ (fun he => hreg he.symm)]
        · rw [if_neg hle]

/-- Specification-side restatement of the latest-record rule, in the claim's
words: take the records resolving to the region, the lexicographically
greatest normalized date among them, and keep that date together with the
last record in input order attaining it. -/
def specSelect (cols : List String) (records : List CsvRecord) (region : String) :
    Option (String × CsvRecord) :=
  let grp := records.filter (fun r => decide (recordRegion r = some region))
  let dmax := (grp.map (dateOf cols)).foldl max ""
  ((grp.filter (fun r => decide (dateOf cols r = dmax))).getLast?).map
    (fun r => (dmax, r))

theorem foldl_latestStep_eq_specSelect (cols : List String) (region : String)
    (records : List CsvRecord) :
    records.foldl (latestStep cols region) none = specSelect cols records region := by
  induction records using List.reverseRecOn with
  | nil => simp [specSelect]
  | append_singleton l r ih =>
    rw [List.foldl_append, List.foldl_cons, List.foldl_nil, ih]
    by_cases hm : recordRegion r = some region
    · have hgrp : (l ++ [r]).filter (fun x => decide (recordRegion x = some region))
          = l.filter (fun x => decide (recordRegion x = some region)) ++ [r] := by
        rw [List.filter_append]
        simp [hm]
      simp only [specSelect, latestStep]
      rw [if_pos hm, hgrp]
      set grp := l.filter (fun x => decide (recordRegion x = some region)) with hgrpdef
      set dmax := (grp.map (dateOf cols)).foldl max "" with hdmaxdef
      have hdmax2 : ((grp ++ [r]).map (dateOf cols)).foldl max ""
          = max dmax (dateOf cols r) := by
        rw [List.map_append, List.foldl_append]
        simp
      rw [hdmax2]
      by_cases hle : dmax ≤ dateOf cols r
      · rw [max_eq_right hle]
        have hfl : (grp ++ [r]).filter (fun x => decide (dateOf cols x = dateOf cols r))
            = grp.filter (fun x => decide (dateOf cols x = dateOf cols r)) ++ [r] := by
          rw [List.filter_append]
          simp
        rw [hfl, List.getLast?_concat]
        rcases hst : (grp.filter (fun x => decide (dateOf cols x = dmax))).getLast? with _ | x
        · simp only [Option.map_none', Option.map_some', Option.getD_none]
          rw [if_pos (empty_string_le (dateOf cols r))]
        · simp only [Option.map_some', Option.getD_some]
          rw [if_pos hle]
      · have hlt : dateOf cols r < dmax := lt_of_not_le hle
        rw [max_eq_left (le_of_lt hlt)]
        have hfl : (grp ++ [r]).filter (fun x => decide (dateOf cols x = dmax))
            = grp.filter (fun x => decide (dateOf cols x = dmax)) := by
          rw [List.filter_append]
          simp [ne_of_lt hlt]
        rw [hfl]
        have hgrpne : grp ≠ [] := by
          intro h0
          rw [h0] at hdmaxdef
          simp only [List.map_nil, List.foldl_nil] at hdmaxdef
          rw [hdmaxdef] at hlt
          exact absurd hlt (not_lt_of_le (empty_string_le _))
        have hmapne : grp.map (dateOf cols) ≠ [] := by
          simpa using hgrpne
        have hatt : dmax ∈ grp.map (dateOf cols) := by
          rw [hdmaxdef]
          exact foldl_max_attained _ hmapne
        obtain ⟨x0, hx0, hx0d⟩ := List.mem_map.mp hatt
        have hfne : grp.filter (fun x => decide (dateOf cols x = dmax)) ≠ [] := by
          intro h0
          have : x0 ∈ grp.filter (fun x => decide (dateOf cols x = dmax)) := by
            rw [List.mem_filter]
            exact ⟨hx0, by simp [hx0d]⟩
          rw [h0] at this
          cases this
        rcases hst : (grp.filter (fun x => decide (dateOf cols x = dmax))).getLast? with _ | x
        · exact absurd (List.getLast?_eq_none_iff.mp hst) hfne
        · simp only [Option.map_some', Option.getD_some]
          rw [if_neg hle]
    · have hgrp : (l ++ [r]).filter (fun x => decide (recordRegion x = some region))
          = l.filter (fun x => decide (recordRegion x = some region)) := by
        rw [List.filter_append]
        simp [hm]
      simp only [specSelect, latestStep]
      rw [if_neg hm, hgrp]

/-- C10: in the bulk-tier latest-record selection (shared by
`_parse_ear_records` and `_parse_carga_records`), for every input record list
and every region the kept entry is exactly: the lexicographically maximal
normalized timestamp among that region's records, paired with the record
occurring last in input order among those attaining it (the `>=` comparison
keeps later ties); records with no recognizable date column participate with
the empty-string timestamp. -/
theorem c10_latest_record_rule (cols : List String) (records : List CsvRecord)
    (region : String) :
    alookup region (latestByRegion cols records) = specSelect cols records region := by
  have h := latestByRegion_foldl_proj cols region records []
  unfold latestByRegion
  exact h.trans (foldl_latestStep_eq_specSelect cols region records)

/-- Index (counting from `p`) of the first alias in the list matching the
field, if any. -/
def firstAliasIdx (field_lower : String) : List String → Nat → Option Nat
  | [], _ => none
  | a0 :: rest, p =>
    if aliasMatch field_lower a0 then some p
    else firstAliasIdx field_lower rest (p + 1)

theorem firstAliasIdx_ge (fl : String) :
    ∀ (as : List String) (p q : Nat), firstAliasIdx fl as p = some q → p ≤ q := by
  intro as
  induction as with
  | nil => intro p q h; cases h
  | cons a0 rest ih =>
    intro p q h
    unfold firstAliasIdx at h
    by_cases hm : aliasMatch fl a0
    · rw [if_pos hm] at h
      cases h
      exact le_refl p
    · rw [if_neg hm] at h
      exact le_trans (Nat.le_succ p) (ih (p + 1) q h)

theorem scanAliases_eq (fl : String) :
    ∀ (as : List String) (p : Nat) (best : Option Nat),
      scanAliases fl best as p =
        match firstAliasIdx fl as p with
        | some q =>
          if (match best with | none => true | some b => decide (q < b)) = true then some q
          else none
        | none => none := by
  intro as
  induction as with
  | nil => intro p best; rfl
  | cons a0 rest ih =>
    intro p best
    by_cases hm : aliasMatch fl a0
    · match best with
      | none => simp [scanAliases, firstAliasIdx, hm]
      | some b =>
        by_cases hb : p < b
        · simp [scanAliases, firstAliasIdx, hm, hb]
        · have hrec : scanAliases fl (some b) rest (p + 1) = none := by
            rw [ih (p + 1) (some b)]
            match hfi : firstAliasIdx fl rest (p + 1) with
            | none => rfl
            | some q =>
              have hq : p + 1 ≤ q := firstAliasIdx_ge fl rest (p + 1) q hfi
              have hqb : ¬q < b := fun h2 =>
                hb (Nat.lt_of_succ_lt (lt_of_le_of_lt hq h2))
              simp [hqb]
          simp [scanAliases, firstAliasIdx, hm, hb, hrec]
    · simp only [scanAliases, firstAliasIdx, hm, Bool.false_and, Bool.false_eq_true,
        if_false]
      exact ih (p + 1) best

/-- Specification-side resolver, in the claim's words: scan the fields in
order; each field contributes the earliest alias index it matches (trimmed,
case-insensitive, exact or underscore-suffix); a field strictly improving on
the current best alias index replaces it — so the earliest alias index wins
and the first-encountered field wins ties. -/
def resolveSpec (aliases : List String) (fields : List String) : Option (String × Nat) :=
  fields.foldl (fun best field_name =>
    match firstAliasIdx (field_name.toLower.trim) aliases 0, best with
    | none, _ => best
    | some p, none => some (field_name, p)
    | some p, some gq => if p < gq.2 then some (field_name, p) else some gq) none

/-- C3 (amended): the catalog-tier field-to-region resolution loop (shared
verbatim by `_extract_reservoir_values` and `_extract_consumption_values`)
implements exactly the documented rule: earliest alias index wins, and among
fields matching that same alias the first-encountered field wins. The bulk
tier does not use this rule (see the counterexample): it resolves the
subsystem identifier value by exact lookup in `subsystem_mapping`. -/
theorem c3_alias_priority_rule (aliases fields : List String) :
    best_match aliases fields = resolveSpec aliases fields := by
  unfold best_match resolveSpec
  suffices h : ∀ (init : Option (String × Nat)),
      fields.foldl (fun best field_name =>
        match scanAliases (field_name.toLower.trim) (best.map (fun fp => fp.2)) aliases 0 with
        | some p => some (field_name, p)
        | none => best) init =
      fields.foldl (fun best field_name =>
        match firstAliasIdx (field_name.toLower.trim) aliases 0, best with
        | none, _ => best
        | some p, none => some (field_name, p)
        | some p, some gq => if p < gq.2 then some (field_name, p) else some gq) init by
    exact h none
  induction fields with
  | nil => intro init; rfl
  | cons f rest ih =>
    intro init
    rw [List.foldl_cons, List.foldl_cons, ih]
    congr 1
    rw [scanAliases_eq]
    match hfi : firstAliasIdx (f.toLower.trim) aliases 0, init with
    | none, none => rfl
    | none, some gq => rfl
    | some p, none => rfl
    | some p, some gq =>
      by_cases hb : p < gq.2
      · simp [hb]
      · simp [hb]

/-- C3 (counterexample): a bulk-tier record whose subsystem identifier is
`SE_CO` resolves to no region at all — `_parse_ear_records` returns `None` —
although the documented alias rule (which the claim asserts also governs the
bulk tier) matches `se_co` to southeast at alias index 1. -/
theorem c3_counterexample :
    parse_ear_records [[("id_subsistema", some "SE_CO"), ("din_instante", some "2024-01-01"),
                        ("val_earverif_percentual", some "65.4")]] = none ∧
    best_match ["sudeste", "se_co", "seco", "se"] ["se_co"] = some ("se_co", 1) ∧
    recordRegion [("id_subsistema", some "SE_CO"), ("din_instante", some "2024-01-01"),
                  ("val_earverif_percentual", some "65.4")] = none := by
  refine ⟨?_, ?_, ?_⟩ <;> with_unfolding_all rfl

/-- Witness for `c5_fixture_missing_raises_only_in_make_request`. -/
theorem c5_witness :
    cFix.use_fixtures = true ∧
    load_fixture cFix "datastore_search" none = none ∧
    load_csv_fixture cFix "x" "y" = none ∧
    make_request cFix netDown "datastore_search" none =
      .error ("Fixture not found for endpoint: " ++ "datastore_search") ∧
    download_csv_data cFix netDown "x" "y" none =
      download_csv_data ⟨false, cFix.jsonFixtures, cFix.csvFixtures⟩ netDown "x" "y" none := by
  have h := c5_fixture_missing_raises_only_in_make_request cFix netDown "datastore_search"
    none "x" "y" none rfl rfl rfl
  exact ⟨rfl, rfl, rfl, h.1, h.2⟩

theorem mem_dropWhile_of_not_pred {p : Char → Bool} (x : Char) (hx : p x = false) :
    ∀ l : List Char, x ∈ l → x ∈ l.dropWhile p := by
  intro l
  induction l with
  | nil => intro h; cases h
  | cons a l ih =>
    intro h
    rw [List.dropWhile_cons]
    by_cases ha : p a
    · rw [if_pos ha]
      rcases List.mem_cons.mp h with rfl | h2
      · rw [hx] at ha; cases ha
      · exact ih h2
    · rw [if_neg ha]
      exact h

theorem mem_stripWs_of_not_ws (x : Char) (hx : isPyWs x = false) (l : List Char)
    (h : x ∈ l) : x ∈ stripWs l := by
  unfold stripWs
  rw [List.mem_reverse]
  apply mem_dropWhile_of_not_pred x hx
  rw [List.mem_reverse]
  exact mem_dropWhile_of_not_pred x hx l h

theorem parseUnsigned_comma (cs : List Char) (h : ',' ∈ cs) :
    parseUnsigned cs = none := by
  have hsplit : cs.takeWhile Char.isDigit ++ cs.dropWhile Char.isDigit = cs :=
    List.takeWhile_append_dropWhile Char.isDigit cs
  have htake : ',' ∉ cs.takeWhile Char.isDigit := fun hmem => by
    have := List.mem_takeWhile_imp hmem
    simp at this
  simp only [parseUnsigned]
  split
  next heq =>
    exfalso
    apply htake
    rw [heq, List.append_nil] at hsplit
    rw [hsplit]
    exact h
  next fp heq =>
    by_cases hfall : fp.all Char.isDigit = true
    · exfalso
      have h2 : ',' ∈ cs.takeWhile Char.isDigit ++ '.' :: fp := by
        rw [← heq, hsplit]
        exact h
      rcases List.mem_append.mp h2 with h3 | h3
      · exact htake h3
      · rcases List.mem_cons.mp h3 with h4 | h4
        · exact absurd h4 (by decide)
        · have h5 := List.all_eq_true.mp hfall _ h4
          simp at h5
    · simp [hfall]
  next => rfl

theorem parseFloatStr_comma (s : String) (h : ',' ∈ s.toList) :
    parseFloatStr s = none := by
  have hmem : ',' ∈ stripWs s.toList :=
    mem_stripWs_of_not_ws ',' (by decide) s.toList h
  unfold parseFloatStr
  split
  next cs heq =>
    apply parseUnsigned_comma
    rw [heq] at hmem
    rcases List.mem_cons.mp hmem with h2 | h2
    · exact absurd h2 (by decide)
    · exact h2
  next cs heq =>
    rw [parseUnsigned_comma cs ?_]
    · rfl
    · rw [heq] at hmem
      rcases List.mem_cons.mp hmem with h2 | h2
      · exact absurd h2 (by decide)
      · exact h2
  next heq h2 =>
    exact parseUnsigned_comma _ hmem

theorem stripWs_pad (cs : List Char) :
    stripWs (' ' :: cs ++ [' ']) = stripWs cs := by
  have hfront : ∀ l : List Char, (' ' :: l).dropWhile isPyWs = l.dropWhile isPyWs := by
    intro l
    rw [List.dropWhile_cons, if_pos (by decide)]
  unfold stripWs
  rw [List.cons_append, hfront]
  rw [List.dropWhile_append]
  by_cases hemp : ((cs.dropWhile isPyWs).isEmpty : Bool)
  · rw [if_pos hemp]
    have : cs.dropWhile isPyWs = [] := by
      cases h0 : cs.dropWhile isPyWs
      · rfl
      · rw [h0] at hemp; cases hemp
    rw [this]
    rfl
  · rw [if_neg hemp]
    rw [List.reverse_append]
    simp only [List.reverse_cons, List.reverse_nil, List.nil_append, List.singleton_append]
    rw [List.dropWhile_cons, if_pos (by decide)]

theorem parseFloatStr_pad (cs : List Char) :
    parseFloatStr (String.mk (' ' :: cs ++ [' '])) = parseFloatStr (String.mk cs) := by
  unfold parseFloatStr
  have h1 : (String.mk (' ' :: cs ++ [' '])).toList = ' ' :: cs ++ [' '] := rfl
  have h2 : (String.mk cs).toList = cs := rfl
  rw [h1, h2, stripWs_pad]

/-- C7 (counterexample): comma-decimal handling does not apply in the
catalog-tier extraction. The same raw value `"65,4"` parses in the bulk tier
(comma replaced with a dot, yielding 65.4) but fails in
`_extract_reservoir_values`, which calls `float()` on the raw value, drops
the region, and ends up returning `None`. -/
theorem c7_counterexample :
    parse_ear_records [[("id_subsistema", some "SE"), ("din_instante", some "2024-01-02"),
                        ("val_earverif_percentual", some "65,4")]] =
      some [("southeast", ⟨654 / 10, 208355, .str "2024-01-02", "normal"⟩)] ∧
    extract_reservoir_values (.arr [.obj [("sudeste", .str "65,4")]]) = .ok none := by
  exact ⟨by with_unfolding_all rfl, by with_unfolding_all rfl⟩

/-- C7 (amended): in the bulk-tier parsers the raw value is parsed after
replacing the comma decimal separator with a dot; the parse itself tolerates
surrounding whitespace; and a parse failure (or an absent/falsy value) moves
on to the next candidate column without raising. Without the replacement a
value containing a comma never parses — which is why the catalog-tier
extraction, which calls `float()` on the raw value directly, fails on comma
decimals and skips the region (see the counterexample). -/
theorem c7_number_parsing :
    (∀ s : String, ',' ∈ s.toList → parseFloatStr s = none) ∧
    (∀ cs : List Char,
      parseFloatStr (String.mk (' ' :: cs ++ [' '])) = parseFloatStr (String.mk cs)) ∧
    (∀ (r : CsvRecord) (col : String) (rest : List String) (v : ℚ),
      rHasTruthy r col = true →
      parseFloatStr (((rget r col).getD "").replace "," ".") = some v →
      tryCols r (col :: rest) = some v) ∧
    (∀ (r : CsvRecord) (col : String) (rest : List String),
      rHasTruthy r col = true →
      parseFloatStr (((rget r col).getD "").replace "," ".") = none →
      tryCols r (col :: rest) = tryCols r rest) ∧
    (∀ (r : CsvRecord) (col : String) (rest : List String),
      rHasTruthy r col = false →
      tryCols r (col :: rest) = tryCols r rest) := by
  refine ⟨parseFloatStr_comma, parseFloatStr_pad, ?_, ?_, ?_⟩
  · intro r col rest v h1 h2
    unfold tryCols
    rw [if_pos h1, h2]
  · intro r col rest h1 h2
    conv_lhs => unfold tryCols
    rw [if_pos h1, h2]
  · intro r col rest h1
    conv_lhs => unfold tryCols
    rw [if_neg (by simp [h1])]

/-- Witness for `c7_number_parsing`. -/
theorem c7_witness :
    parseFloatStr "65,4" = none ∧
    parseFloatStr (String.mk (' ' :: ("65.4" : String).toList ++ [' '])) =
      parseFloatStr (String.mk ("65.4" : String).toList) ∧
    tryCols [("val_carga", some "65,4")] ["val_carga", "x"] = some (654 / 10) := by
  refine ⟨c7_number_parsing.1 "65,4" (by with_unfolding_all decide),
    c7_number_parsing.2.1 ("65.4" : String).toList,
    c7_number_parsing.2.2.1 [("val_carga", some "65,4")] "val_carga" ["x"] (654 / 10)
      (by with_unfolding_all decide) ?_⟩
  with_unfolding_all rfl

theorem latestByRegion_keys_nodup (cols : List String) (records : List CsvRecord) :
    ((latestByRegion cols records).map Prod.fst).Nodup := by
  unfold latestByRegion
  suffices h : ∀ (rs : List CsvRecord) (acc : List (String × (String × CsvRecord))),
      (acc.map Prod.fst).Nodup →
      ((rs.foldl (fun acc record =>
        match recordRegion record with
        | none => acc
        | some region_key =>
          let date_str := dateOf cols record
          let current_date := ((alookup region_key acc).map (fun dr => dr.1)).getD ""
          if current_date ≤ date_str then dictInsert acc region_key (date_str, record)
          else acc) acc).map Prod.fst).Nodup from
    h records [] (by simp)
  intro rs
  induction rs with
  | nil => intro acc h; exact h
  | cons r rest ih =>
    intro acc h
    rw [List.foldl_cons]
    apply ih
    rcases h0 : recordRegion r with _ | rk
    · simpa [h0] using h
    · simp only [h0]
      split
    
      · exact dictInsert_keys_nodup acc rk _ h
      · exact h

theorem cargaStep_foldl_sum :
    ∀ (l : List (String × (String × CsvRecord))) (st : ℚ × List (String × ConsRegion) × JVal),
      (l.map Prod.fst).Nodup →
      (∀ kv ∈ l, ∀ e ∈ st.2.1, e.1 ≠ kv.1) →
      (l.foldl cargaStep st).1 + (st.2.1.map (fun kv => kv.2.load_mw)).sum =
        st.1 + ((l.foldl cargaStep st).2.1.map (fun kv => kv.2.load_mw)).sum := by
  intro l
  induction l with
  | nil => intro st _ _; simp
  | cons rd rest ih =>
    intro st hnd hfresh
    rw [List.map_cons] at hnd
    have hnd2 := List.nodup_cons.mp hnd
    have hndtl : (rest.map Prod.fst).Nodup := hnd2.2
    have hhd : rd.1 ∉ rest.map Prod.fst := hnd2.1
    rw [List.foldl_cons]
    rcases htc : tryCols rd.2.2 ["val_cargaenergiamwmed", "val_carga", "carga"] with _ | load
    · have hstep : cargaStep st rd = st := by unfold cargaStep; rw [htc]
      rw [hstep]
      exact ih st hndtl (fun kv hkv => hfresh kv (List.mem_cons_of_mem rd hkv))
    · have hfreshhd : ∀ e ∈ st.2.1, e.1 ≠ rd.1 :=
        hfresh rd (List.mem_cons_self rd rest)
      have happend : dictInsert st.2.1 rd.1 (⟨load, 0⟩ : ConsRegion)
          = st.2.1 ++ [(rd.1, (⟨load, 0⟩ : ConsRegion))] := by
        unfold dictInsert
        rw [if_neg]
        simp only [List.any_eq_true, decide_eq_true_eq, not_exists, not_and]
        exact fun e he => hfreshhd e he
      have hstep0 : cargaStep st rd =
          (st.1 + load, dictInsert st.2.1 rd.1 (⟨load, 0⟩ : ConsRegion), JVal.str rd.2.1) := by
        unfold cargaStep
        rw [htc]
      have hstep : cargaStep st rd =
          (st.1 + load, st.2.1 ++ [(rd.1, (⟨load, 0⟩ : ConsRegion))], JVal.str rd.2.1) := by
        rw [hstep0, happend]
      rw [hstep]
      have hfresh2 : ∀ kv ∈ rest,
          ∀ e ∈ st.2.1 ++ [(rd.1, (⟨load, 0⟩ : ConsRegion))], e.1 ≠ kv.1 := by
        intro kv hkv e he
        rcases List.mem_append.mp he with he2 | he2
        · exact hfresh kv (List.mem_cons_of_mem rd hkv) e he2
        · rcases List.mem_singleton.mp he2 with rfl
          intro hcontra
          apply hhd
          rw [hcontra]
          exact List.mem_map_of_mem Prod.fst hkv
      have ih2 := ih (st.1 + load, st.2.1 ++ [(rd.1, (⟨load, 0⟩ : ConsRegion))],
        JVal.str rd.2.1) hndtl hfresh2
      simp only [List.map_append, List.sum_append, List.map_cons, List.map_nil,
        List.sum_cons, List.sum_nil] at ih2 ⊢
      linarith

theorem consStep_foldl_sum (kvs : List (String × JVal)) :
    ∀ (l : List (String × List String)) (st : ℚ × List (String × ConsRegion)),
      (l.map Prod.fst).Nodup →
      (∀ kv ∈ l, ∀ e ∈ st.2, e.1 ≠ kv.1) →
      (l.foldl (consStep kvs) st).1 + (st.2.map (fun kv => kv.2.load_mw)).sum =
        st.1 + ((l.foldl (consStep kvs) st).2.map (fun kv => kv.2.load_mw)).sum := by
  intro l
  induction l with
  | nil => intro st _ _; simp
  | cons rm rest ih =>
    intro st hnd hfresh
    rw [List.map_cons] at hnd
    have hnd2 := List.nodup_cons.mp hnd
    have hndtl : (rest.map Prod.fst).Nodup := hnd2.2
    have hhd : rm.1 ∉ rest.map Prod.fst := hnd2.1
    rw [List.foldl_cons]
    have hcases : consStep kvs st rm = st ∨
        ∃ load, consStep kvs st rm =
          (st.1 + load, dictInsert st.2 rm.1 (⟨load, 0⟩ : ConsRegion)) := by
      unfold consStep
      rcases hbm : best_match rm.2 (kvs.map (fun kv => kv.1)) with _ | fp
      · simp only [hbm]
        exact Or.inl (by simp [pyFloatJ])
      · simp only [hbm]
        rcases halo : (alookup fp.1 kvs).getD .null with _ | b | q | s2 | xs | kvs2
        · simp only [halo]
          exact Or.inl (by simp [pyFloatJ])
        · simp only [halo]
          exact Or.inr ⟨if b then 1 else 0, rfl⟩
        · simp only [halo]
          exact Or.inr ⟨q, rfl⟩
        · simp only [halo]
          rcases hp : parseFloatStr s2 with _ | q
          · simp only [pyFloatJ, hp]
            exact Or.inl (by simp [pyFloatJ])
          · simp only [pyFloatJ, hp]
            exact Or.inr ⟨q, rfl⟩
        · simp only [halo]
          exact Or.inl (by simp [pyFloatJ])
        · simp only [halo]
          exact Or.inl (by simp [pyFloatJ])
    rcases hcases with hstep | ⟨load, hstep⟩
    · rw [hstep]
      exact ih st hndtl (fun kv hkv => hfresh kv (List.mem_cons_of_mem rm hkv))
    · have hfreshhd : ∀ e ∈ st.2, e.1 ≠ rm.1 :=
        hfresh rm (List.mem_cons_self rm rest)
      have happend : dictInsert st.2 rm.1 (⟨load, 0⟩ : ConsRegion)
          = st.2 ++ [(rm.1, (⟨load, 0⟩ : ConsRegion))] := by
        unfold dictInsert
        rw [if_neg]
        simp only [List.any_eq_true, decide_eq_true_eq, not_exists, not_and]
        exact fun e he => hfreshhd e he
      rw [hstep, happend]
      have hfresh2 : ∀ kv ∈ rest,
          ∀ e ∈ st.2 ++ [(rm.1, (⟨load, 0⟩ : ConsRegion))], e.1 ≠ kv.1 := by
        intro kv hkv e he
        rcases List.mem_append.mp he with he2 | he2
        · exact hfresh kv (List.mem_cons_of_mem rm hkv) e he2
        · rcases List.mem_singleton.mp he2 with rfl
          intro hcontra
          apply hhd
          rw [hcontra]
          exact List.mem_map_of_mem Prod.fst hkv
      have ih2 := ih (st.1 + load, st.2 ++ [(rm.1, (⟨load, 0⟩ : ConsRegion))])
        hndtl hfresh2
      simp only [List.map_append, List.sum_append, List.map_cons, List.map_nil,
        List.sum_cons, List.sum_nil] at ih2 ⊢
      linarith

theorem map_percent_preserves_loads (rs : List (String × ConsRegion)) (total : ℚ) :
    ((rs.map (fun kv =>
      (kv.1, (⟨kv.2.load_mw, round1 ((kv.2.load_mw / total) * 100)⟩ : ConsRegion)))).map
        (fun kv => kv.2.load_mw)) = rs.map (fun kv => kv.2.load_mw) := by
  rw [List.map_map]
  apply List.map_congr_left
  intro kv _
  rfl

theorem consAssemble_totals (ts : JVal) (st : ℚ × List (String × ConsRegion))
    (cd : ConsData)
    (hsum : st.1 = (st.2.map (fun kv => kv.2.load_mw)).sum)
    (h : consAssemble ts st = some cd)
    (hpos : 0 < (cd.regions.map (fun kv => kv.2.load_mw)).sum) :
    cd.current_load_mw = pyInt ((cd.regions.map (fun kv => kv.2.load_mw)).sum) ∧
    cd.forecast_load_mw =
      pyInt (((cd.regions.map (fun kv => kv.2.load_mw)).sum) * (103 / 100)) := by
  simp only [consAssemble] at h
  by_cases htot : 0 < st.1
  · rw [if_pos htot, if_pos htot, if_pos htot] at h
    split at h
    · cases h
    · have hcd := Option.some.inj h
      have hregions : cd.regions = st.2.map (fun kv =>
          (kv.1, (⟨kv.2.load_mw, round1 ((kv.2.load_mw / st.1) * 100)⟩ : ConsRegion))) := by
        rw [← hcd]
      have hloads : (cd.regions.map (fun kv => kv.2.load_mw)).sum = st.1 := by
        rw [hregions, map_percent_preserves_loads, ← hsum]
      constructor
      · rw [hloads, ← hcd]
      · rw [hloads, ← hcd]
  · rw [if_neg htot, if_neg htot, if_neg htot] at h
    split at h
    · cases h
    · have hcd := Option.some.inj h
      have hloads : (cd.regions.map (fun kv => kv.2.load_mw)).sum = st.1 := by
        rw [← hcd, ← hsum]
      rw [hloads] at hpos
      exact absurd hpos htot

/-- C6 (amended): in every successful consumption resolution with positive
total load — on both the bulk path (`_parse_carga_records`) and the catalog
path (`_extract_consumption_values`) — the reported total current load is the
per-region loads' sum **truncated toward zero** (Python `int()`), and the
forecast equals `int(totalLoad * 1.03)`, also truncated, not rounded to the
nearest integer. (At the claim's example loads both coincide with rounding:
68542 and 70598 — see the witness.) -/
theorem c6_totals_truncate :
    (∀ (records : List CsvRecord) (cd : ConsData),
      parse_carga_records records = some cd →
      0 < (cd.regions.map (fun kv => kv.2.load_mw)).sum →
      cd.current_load_mw = pyInt ((cd.regions.map (fun kv => kv.2.load_mw)).sum) ∧
      cd.forecast_load_mw =
        pyInt (((cd.regions.map (fun kv => kv.2.load_mw)).sum) * (103 / 100))) ∧
    (∀ (records : JVal) (cd : ConsData),
      extract_consumption_values records = .ok (some cd) →
      0 < (cd.regions.map (fun kv => kv.2.load_mw)).sum →
      cd.current_load_mw = pyInt ((cd.regions.map (fun kv => kv.2.load_mw)).sum) ∧
      cd.forecast_load_mw =
        pyInt (((cd.regions.map (fun kv => kv.2.load_mw)).sum) * (103 / 100))) := by
  constructor
  · intro records cd h hpos
    unfold parse_carga_records at h
    by_cases hemp : records.isEmpty
    · rw [if_pos hemp] at h; cases h
    · rw [if_neg hemp] at h
      refine consAssemble_totals _ _ cd ?_ h hpos
      have := cargaStep_foldl_sum (latestByRegion ["din_instante", "data"] records)
        ((0 : ℚ), ([] : List (String × ConsRegion)), JVal.str "")
        (latestByRegion_keys_nodup _ _) (by intro kv _ e he; cases he)
      simpa using this
  · intro records cd h hpos
    unfold extract_consumption_values at h
    rcases hlr : (if records.truthy then pyIndex0 records else pure (JVal.obj []))
        with msg | lr
    · rw [hlr] at h
      cases h
    · rw [hlr] at h
      simp only [Except.bind] at h
      match lr, h with
      | .obj kvs, h =>
        simp only at h
        have h2 : consAssemble
            ((alookup "data" kvs).getD ((alookup "timestamp" kvs).getD (.str "")))
            (region_mappings.foldl (consStep kvs)
              ((0 : ℚ), ([] : List (String × ConsRegion)))) = some cd := by
          exact Except.ok.inj h
        refine consAssemble_totals _ _ cd ?_ h2 hpos
        have := consStep_foldl_sum kvs region_mappings
          ((0 : ℚ), ([] : List (String × ConsRegion)))
          (by decide) (by intro kv _ e he; cases he)
        simpa using this

/-- C6 (counterexample): the totals are truncated, not rounded to the nearest
integer: a single region with load 10.6 yields `current_load_mw = 10` (and
`forecast_load_mw = int(10.6 * 1.03) = 10`), whereas rounding the sum to the
nearest integer gives 11. -/
theorem c6_counterexample :
    parse_carga_records [[("id_subsistema", some "SE"), ("din_instante", some "2024-01-01"),
                          ("val_carga", some "10.6")]] =
      some ⟨10, 10, JVal.str "2024-01-01", [("southeast", ⟨106 / 10, 100⟩)]⟩ ∧
    rhe (106 / 10) = 11 := by
  exact ⟨by with_unfolding_all rfl, by with_unfolding_all decide⟩

/-- The claim's example consumption record (catalog-tier field names, as in
the repository's own test). -/
def consExample : JVal :=
  .arr [.obj [("data", .str "2024-01-15T10:00:00"), ("sudeste", .str "38245"),
    ("sul", .str "9876"), ("nordeste", .str "12543"), ("norte", .str "7878")]]

/-- The snapshot the embedding computes for `consExample`. -/
def consExampleResult : ConsData :=
  ⟨68542, 70598, .str "2024-01-15T10:00:00",
   [("southeast", ⟨38245, 558 / 10⟩), ("south", ⟨9876, 144 / 10⟩),
    ("northeast", ⟨12543, 183 / 10⟩), ("north", ⟨7878, 115 / 10⟩)]⟩

/-- Witness for `c6_totals_truncate`, at the claim's example loads: the code
yields `currentLoadMW = 68542` and `forecastLoadMW = 70598`. -/
theorem c6_witness :
    extract_consumption_values consExample = .ok (some consExampleResult) ∧
    0 < (consExampleResult.regions.map (fun kv => kv.2.load_mw)).sum ∧
    consExampleResult.current_load_mw =
      pyInt ((consExampleResult.regions.map (fun kv => kv.2.load_mw)).sum) ∧
    consExampleResult.forecast_load_mw =
      pyInt (((consExampleResult.regions.map (fun kv => kv.2.load_mw)).sum) * (103 / 100)) ∧
    consExampleResult.current_load_mw = 68542 ∧
    consExampleResult.forecast_load_mw = 70598 := by
  have h := c6_totals_truncate.2 consExample consExampleResult
    (by with_unfolding_all rfl) (by with_unfolding_all decide)
  exact ⟨by with_unfolding_all rfl, by with_unfolding_all decide, h.1, h.2, rfl, rfl⟩

theorem rat_floor_le (q : ℚ) : ((q.floor : ℤ) : ℚ) ≤ q := Rat.le_floor.mp (le_refl _)

theorem rat_lt_floor_add_one (q : ℚ) : q < ((q.floor : ℤ) : ℚ) + 1 := by
  by_contra hc
  push_neg at hc
  have h2 : ((q.floor + 1 : ℤ) : ℚ) ≤ q := by push_cast; linarith
  have h3 := Rat.le_floor.mpr h2
  omega

theorem rhe_close (q : ℚ) : |(rhe q : ℚ) - q| ≤ 1 / 2 := by
  simp only [rhe]
  have h1 := rat_floor_le q
  have h2 := rat_lt_floor_add_one q
  by_cases hlt : q - ((q.floor : ℤ) : ℚ) < 1 / 2
  · rw [if_pos hlt, abs_le]
    constructor <;> linarith
  · rw [if_neg hlt]
    by_cases hgt : 1 / 2 < q - ((q.floor : ℤ) : ℚ)
    · rw [if_pos hgt, abs_le]
      push_cast
      constructor <;> linarith
    · rw [if_neg hgt]
      by_cases hpar : q.floor % 2 = 0
      · rw [if_pos hpar, abs_le]
        constructor <;> linarith
      · rw [if_neg hpar, abs_le]
        push_cast
        constructor <;> linarith

theorem round1_close (q : ℚ) : |round1 q - q| ≤ 1 / 20 := by
  unfold round1
  have h := rhe_close (q * 10)
  have h3 : (rhe (q * 10) : ℚ) / 10 - q = ((rhe (q * 10) : ℚ) - q * 10) / 10 := by ring
  rw [h3, abs_div, abs_of_pos (show (0 : ℚ) < 10 by norm_num)]
  linarith

theorem sum_round1_close (l : List ℚ) :
    |(l.map round1).sum - l.sum| ≤ l.length * (1 / 20) := by
  induction l with
  | nil => simp
  | cons x l ih =>
    simp only [List.map_cons, List.sum_cons, List.length_cons]
    have h := round1_close x
    have habs : |round1 x + (l.map round1).sum - (x + l.sum)|
        ≤ |round1 x - x| + |(l.map round1).sum - l.sum| := by
      have := abs_add (round1 x - x) ((l.map round1).sum - l.sum)
      calc |round1 x + (l.map round1).sum - (x + l.sum)|
          = |(round1 x - x) + ((l.map round1).sum - l.sum)| := by ring_nf
        _ ≤ |round1 x - x| + |(l.map round1).sum - l.sum| := this
    push_cast
    linarith

theorem sum_map_share (l : List (String × ConsRegion)) (t : ℚ) :
    (l.map (fun kv => kv.2.load_mw / t * 100)).sum =
      (l.map (fun kv => kv.2.load_mw)).sum / t * 100 := by
  induction l with
  | nil => simp
  | cons x l ih =>
    simp only [List.map_cons, List.sum_cons, ih]
    ring

theorem dictInsert_length_le (d : List (String × α)) (k : String) (v : α) :
    (dictInsert d k v).length ≤ d.length + 1 := by
  unfold dictInsert
  split
  · rw [List.length_map]
    omega
  · rw [List.length_append]
    simp

theorem recordRegion_mem (r : CsvRecord) (v : String) (h : recordRegion r = some v) :
    v ∈ ["southeast", "south", "northeast", "north"] := by
  simp only [recordRegion, subsystem_mapping, alookup] at h
  repeat' split at h
  all_goals simp_all

theorem latestByRegion_keys_sub (cols : List String) (records : List CsvRecord) :
    ∀ x ∈ (latestByRegion cols records).map Prod.fst,
      x ∈ ["southeast", "south", "northeast", "north"] := by
  unfold latestByRegion
  suffices h : ∀ (rs : List CsvRecord) (acc : List (String × (String × CsvRecord))),
      (∀ x ∈ acc.map Prod.fst, x ∈ ["southeast", "south", "northeast", "north"]) →
      ∀ x ∈ ((rs.foldl (fun acc record =>
        match recordRegion record with
        | none => acc
        | some region_key =>
          let date_str := dateOf cols record
          let current_date := ((alookup region_key acc).map (fun dr => dr.1)).getD ""
          if current_date ≤ date_str then dictInsert acc region_key (date_str, record)
          else acc) acc)).map Prod.fst, x ∈ ["southeast", "south", "northeast", "north"] from
    h records [] (by intro x hx; cases hx)
  intro rs
  induction rs with
  | nil => intro acc h; exact h
  | cons r rest ih =>
    intro acc h
    rw [List.foldl_cons]
    apply ih
    rcases h0 : recordRegion r with _ | rk
    · simpa [h0] using h
    · simp only [h0]
      split
      · intro x hx
        rcases dictInsert_keys_mem acc rk _ x hx with h2 | rfl
        · exact h x h2
        · exact recordRegion_mem r x h0
      · exact h

theorem latestByRegion_length_le (cols : List String) (records : List CsvRecord) :
    (latestByRegion cols records).length ≤ 4 := by
  have hnd := latestByRegion_keys_nodup cols records
  have hsub := latestByRegion_keys_sub cols records
  have hsp := (List.Nodup.subperm hnd (fun x hx => hsub x hx)).length_le
  simpa using hsp

theorem cargaStep_fold_length :
    ∀ (l : List (String × (String × CsvRecord))) (st : ℚ × List (String × ConsRegion) × JVal),
      (l.foldl cargaStep st).2.1.length ≤ st.2.1.length + l.length := by
  intro l
  induction l with
  | nil => intro st; simp
  | cons rd rest ih =>
    intro st
    rw [List.foldl_cons]
    have hstep : (cargaStep st rd).2.1.length ≤ st.2.1.length + 1 := by
      unfold cargaStep
      rcases htc : tryCols rd.2.2 ["val_cargaenergiamwmed", "val_carga", "carga"] with _ | load
      · simp
      · simpa using dictInsert_length_le st.2.1 rd.1 (⟨load, 0⟩ : ConsRegion)
    calc (rest.foldl cargaStep (cargaStep st rd)).2.1.length
        ≤ (cargaStep st rd).2.1.length + rest.length := ih _
      _ ≤ st.2.1.length + 1 + rest.length := by omega
      _ = st.2.1.length + (rd :: rest).length := by rw [List.length_cons]; omega

theorem consStep_fold_length (kvs : List (String × JVal)) :
    ∀ (l : List (String × List String)) (st : ℚ × List (String × ConsRegion)),
      (l.foldl (consStep kvs) st).2.length ≤ st.2.length + l.length := by
  intro l
  induction l with
  | nil => intro st; simp
  | cons rm rest ih =>
    intro st
    rw [List.foldl_cons]
    have hstep : (consStep kvs st rm).2.length ≤ st.2.length + 1 := by
      unfold consStep
      rcases hbm : best_match rm.2 (kvs.map (fun kv => kv.1)) with _ | fp
      · simp [hbm]
      · simp only [hbm]
        rcases halo : (alookup fp.1 kvs).getD .null with _ | b | q | s2 | xs | kvs2 <;>
          simp only [halo, pyFloatJ]
        · simp
        · simpa using dictInsert_length_le st.2 rm.1 _
        · simpa using dictInsert_length_le st.2 rm.1 _
        · rcases hp : parseFloatStr s2 with _ | q
          · simp [hp]
          · simp only [hp]
            simpa using dictInsert_length_le st.2 rm.1 _
        · simp
        · simp
    calc (rest.foldl (consStep kvs) (consStep kvs st rm)).2.length
        ≤ (consStep kvs st rm).2.length + rest.length := ih _
      _ ≤ st.2.length + 1 + rest.length := by omega
      _ = st.2.length + (rm :: rest).length := by rw [List.length_cons]; omega

theorem consAssemble_percent_sum (ts : JVal) (st : ℚ × List (String × ConsRegion))
    (cd : ConsData)
    (hsum : st.1 = (st.2.map (fun kv => kv.2.load_mw)).sum)
    (hlen : st.2.length ≤ 4)
    (h : consAssemble ts st = some cd)
    (hpos : 0 < (cd.regions.map (fun kv => kv.2.load_mw)).sum) :
    |(cd.regions.map (fun kv => kv.2.percent)).sum - 100| ≤ 1 := by
  simp only [consAssemble] at h
  by_cases htot : 0 < st.1
  · rw [if_pos htot, if_pos htot, if_pos htot] at h
    split at h
    · cases h
    · have hcd := Option.some.inj h
      have hregions : cd.regions = st.2.map (fun kv =>
          (kv.1, (⟨kv.2.load_mw, round1 ((kv.2.load_mw / st.1) * 100)⟩ : ConsRegion))) := by
        rw [← hcd]
      have hperc : cd.regions.map (fun kv => kv.2.percent)
          = (st.2.map (fun kv => kv.2.load_mw / st.1 * 100)).map round1 := by
        rw [hregions, List.map_map, List.map_map]
        rfl
      have hshares : (st.2.map (fun kv => kv.2.load_mw / st.1 * 100)).sum = 100 := by
        rw [sum_map_share, ← hsum, div_self (ne_of_gt htot), one_mul]
      have hclose := sum_round1_close (st.2.map (fun kv => kv.2.load_mw / st.1 * 100))
      rw [hshares] at hclose
      rw [hperc]
      have hlenq : ((st.2.map (fun kv => kv.2.load_mw / st.1 * 100)).length : ℚ) ≤ 4 := by
        rw [List.length_map]
        exact_mod_cast hlen
      have hbound : ((st.2.map (fun kv => kv.2.load_mw / st.1 * 100)).length : ℚ) * (1 / 20)
          ≤ 1 := by linarith
      linarith
  · rw [if_neg htot, if_neg htot, if_neg htot] at h
    split at h
    · cases h
    · have hcd := Option.some.inj h
      have hloads : (cd.regions.map (fun kv => kv.2.load_mw)).sum = st.1 := by
        rw [← hcd, ← hsum]
      rw [hloads] at hpos
      exact absurd hpos htot

/-- C8: for every consumption resolution that succeeds with a positive total
load — on both the bulk path (`_parse_carga_records`) and the catalog path
(`_extract_consumption_values`) — the per-region percent fields (one-decimal
rounds of the load shares) sum to within ±1 of 100. -/
theorem c8_percent_sum :
    (∀ (records : List CsvRecord) (cd : ConsData),
      parse_carga_records records = some cd →
      0 < (cd.regions.map (fun kv => kv.2.load_mw)).sum →
      |(cd.regions.map (fun kv => kv.2.percent)).sum - 100| ≤ 1) ∧
    (∀ (records : JVal) (cd : ConsData),
      extract_consumption_values records = .ok (some cd) →
      0 < (cd.regions.map (fun kv => kv.2.load_mw)).sum →
      |(cd.regions.map (fun kv => kv.2.percent)).sum - 100| ≤ 1) := by
  constructor
  · intro records cd h hpos
    unfold parse_carga_records at h
    by_cases hemp : records.isEmpty
    · rw [if_pos hemp] at h; cases h
    · rw [if_neg hemp] at h
      refine consAssemble_percent_sum _ _ cd ?_ ?_ h hpos
      · have := cargaStep_foldl_sum (latestByRegion ["din_instante", "data"] records)
          ((0 : ℚ), ([] : List (String × ConsRegion)), JVal.str "")
          (latestByRegion_keys_nodup _ _) (by intro kv _ e he; cases he)
        simpa using this
      · have h1 := cargaStep_fold_length (latestByRegion ["din_instante", "data"] records)
          ((0 : ℚ), ([] : List (String × ConsRegion)), JVal.str "")
        have h2 := latestByRegion_length_le ["din_instante", "data"] records
        simp only [List.length_nil] at h1
        show ((latestByRegion ["din_instante", "data"] records).foldl cargaStep
          ((0 : ℚ), ([] : List (String × ConsRegion)), JVal.str "")).2.1.length ≤ 4
        omega
  · intro records cd h hpos
    unfold extract_consumption_values at h
    rcases hlr : (if records.truthy then pyIndex0 records else pure (JVal.obj []))
        with msg | lr
    · rw [hlr] at h
      cases h
    · rw [hlr] at h
      match lr, h with
      | .obj kvs, h =>
        simp only at h
        have h2 : consAssemble
            ((alookup "data" kvs).getD ((alookup "timestamp" kvs).getD (.str "")))
            (region_mappings.foldl (consStep kvs)
              ((0 : ℚ), ([] : List (String × ConsRegion)))) = some cd :=
          Except.ok.inj h
        refine consAssemble_percent_sum _ _ cd ?_ ?_ h2 hpos
        · have := consStep_foldl_sum kvs region_mappings
            ((0 : ℚ), ([] : List (String × ConsRegion)))
            (by decide) (by intro kv _ e he; cases he)
          simpa using this
        · have h1 := consStep_fold_length kvs region_mappings
            ((0 : ℚ), ([] : List (String × ConsRegion)))
          simpa using h1

/-- Witness for `c8_percent_sum`: at the claim's example loads the percents
are 55.8, 14.4, 18.3 and 11.5, summing to exactly 100. -/
theorem c8_witness :
    extract_consumption_values consExample = .ok (some consExampleResult) ∧
    0 < (consExampleResult.regions.map (fun kv => kv.2.load_mw)).sum ∧
    |(consExampleResult.regions.map (fun kv => kv.2.percent)).sum - 100| ≤ 1 := by
  refine ⟨by with_unfolding_all rfl, by with_unfolding_all decide,
    c8_percent_sum.2 consExample consExampleResult (by with_unfolding_all rfl)
      (by with_unfolding_all decide)⟩

/-- A dynamic value that is a dict. -/
def JVal.isObj : JVal → Bool
  | .obj _ => true
  | _ => false

/-- A list value whose elements are all dicts — the benign shape of a sampled
records payload. -/
def isObjList : JVal → Bool
  | .arr xs => xs.all JVal.isObj
  | _ => false

/-- Well-formed resource descriptor: a dict whose `name` and `format` values,
when present, are strings (so `.lower()` / `.upper()` cannot raise). -/
def wfResource : JVal → Bool
  | .obj kvs =>
    (match alookup "name" kvs with
     | none => true
     | some (.str _) => true
     | some _ => false) &&
    (match alookup "format" kvs with
     | none => true
     | some (.str _) => true
     | some _ => false)
  | _ => false

/-- Well-formed dataset descriptor: a dict whose `resources` value, when
present, is a list of well-formed resource descriptors. -/
def wfDataset : JVal → Bool
  | .obj kvs =>
    (match alookup "resources" kvs with
     | none => true
     | some (.arr rs) => rs.all wfResource
     | some _ => false)
  | _ => false

/-- Well-formed dataset list: the benign shape of a `package_search` result. -/
def wfDatasetList : JVal → Bool
  | .arr ds => ds.all wfDataset
  | _ => false

theorem extract_reservoir_values_ok (j : JVal) (hwf : isObjList j = true) :
    ∃ o, extract_reservoir_values j = .ok o := by
  match j, hwf with
  | .arr [], _ => exact ⟨_, rfl⟩
  | .arr (x :: xs), hwf =>
    simp only [isObjList, List.all_cons, Bool.and_eq_true] at hwf
    match x, hwf.1 with
    | .obj kvs, _ => exact ⟨_, rfl⟩

theorem extract_consumption_values_ok (j : JVal) (hwf : isObjList j = true) :
    ∃ o, extract_consumption_values j = .ok o := by
  match j, hwf with
  | .arr [], _ => exact ⟨_, rfl⟩
  | .arr (x :: xs), hwf =>
    simp only [isObjList, List.all_cons, Bool.and_eq_true] at hwf
    match x, hwf.1 with
    | .obj kvs, _ => exact ⟨_, rfl⟩

theorem scanResources_ok {α : Type} (c : Client) (net : Net) (keywords : List String)
    (extract : JVal → Except String (Option α))
    (hext : ∀ j, isObjList j = true → ∃ o, extract j = .ok o)
    (hrec : ∀ (rid : JVal) (lim : ℚ) (j : JVal),
      get_dataset_resource_data c net rid lim = some j → isObjList j = true) :
    ∀ (rs : List JVal), rs.all wfResource = true →
      ∃ o, scanResources c net keywords extract rs = .ok o := by
  intro rs
  induction rs with
  | nil => intro _; exact ⟨none, rfl⟩
  | cons r rest ih =>
    intro hwf
    simp only [List.all_cons, Bool.and_eq_true] at hwf
    obtain ⟨hr, hrest⟩ := hwf
    match r, hr with
    | .obj kvs, hr =>
      simp only [wfResource, Bool.and_eq_true] at hr
      obtain ⟨hname, hfmt⟩ := hr
      unfold scanResources
      have hnameok : ∃ nm : String, pyGetD (.obj kvs) "name" (.str "") = .ok (.str nm) := by
        simp only [pyGetD]
        match hn : alookup "name" kvs, hname with
        | none, _ => exact ⟨"", by simp⟩
        | some (.str nm), _ => exact ⟨nm, by simp⟩
      have hfmtok : ∃ fm : String, pyGetD (.obj kvs) "format" (.str "") = .ok (.str fm) := by
        simp only [pyGetD]
        match hf : alookup "format" kvs, hfmt with
        | none, _ => exact ⟨"", by simp⟩
        | some (.str fm), _ => exact ⟨fm, by simp⟩
      obtain ⟨nm, hnm⟩ := hnameok
      obtain ⟨fm, hfm⟩ := hfmtok
      rw [hnm, hfm]
      simp only [pyLower, pyUpper]
      split
      · match hid : pyGetD (.obj kvs) "id" .null with
        | .error e =>
          exact absurd hid (by simp [pyGetD])
        | .ok rid =>
          dsimp only
          by_cases hridt : rid.truthy
          · rw [if_pos hridt]
            match hg : get_dataset_resource_data c net rid 10 with
            | some recs =>
              dsimp only
              by_cases hrt : recs.truthy
              · rw [if_pos hrt]
                have hol := hrec rid 10 recs hg
                match recs, hol with
                | .arr xs, hol =>
                  simp only [pyLen]
                  split
                  · obtain ⟨o, ho⟩ := hext (.arr xs) hol
                    rw [ho]
                    exact ⟨some o, rfl⟩
                  · exact ih hrest
              · rw [if_neg hrt]
                exact ih hrest
            | none => exact ih hrest
          · rw [if_neg hridt]
            exact ih hrest
      · exact ih hrest

theorem parseDatasets_ok {α : Type} (c : Client) (net : Net) (keywords : List String)
    (extract : JVal → Except String (Option α))
    (hext : ∀ j, isObjList j = true → ∃ o, extract j = .ok o)
    (hrec : ∀ (rid : JVal) (lim : ℚ) (j : JVal),
      get_dataset_resource_data c net rid lim = some j → isObjList j = true) :
    ∀ (ds : List JVal), ds.all wfDataset = true →
      ∃ o, parseDatasets c net keywords extract ds = .ok o := by
  intro ds
  induction ds with
  | nil => intro _; exact ⟨none, rfl⟩
  | cons d rest ih =>
    intro hwf
    simp only [List.all_cons, Bool.and_eq_true] at hwf
    obtain ⟨hd, hrest⟩ := hwf
    match d, hd with
    | .obj kvs, hd =>
      simp only [wfDataset] at hd
      unfold parseDatasets
      have : ∃ rs : List JVal, pyGetD (.obj kvs) "resources" (.arr []) = .ok (.arr rs) ∧
          rs.all wfResource = true := by
        simp only [pyGetD]
        match hres : alookup "resources" kvs, hd with
        | none, _ => exact ⟨[], by simp, rfl⟩
        | some (.arr rs), hd => exact ⟨rs, by simp, hd⟩
      obtain ⟨rs, hrs, hwfrs⟩ := this
      rw [hrs]
      simp only [pyIter]
      obtain ⟨o, ho⟩ := scanResources_ok c net keywords extract hext hrec rs hwfrs
      rw [ho]
      match o with
      | some e0 => exact ⟨e0, rfl⟩
      | none => exact ih hrest

theorem parse_reservoir_data_ok (c : Client) (net : Net) (datasets : JVal)
    (hwf : wfDatasetList datasets = true)
    (hrec : ∀ (rid : JVal) (lim : ℚ) (j : JVal),
      get_dataset_resource_data c net rid lim = some j → isObjList j = true) :
    ∃ o, parse_reservoir_data c net datasets = .ok o := by
  match datasets, hwf with
  | .arr ds, hwf =>
    simp only [wfDatasetList] at hwf
    by_cases ht : (JVal.arr ds).truthy
    · have h1 : parse_reservoir_data c net (.arr ds) =
        parseDatasets c net ["reservatorio", "ear", "armazenamento"]
          extract_reservoir_values ds := by
        unfold parse_reservoir_data
        rw [if_pos ht]
        rfl
      rw [h1]
      exact parseDatasets_ok c net _ _ extract_reservoir_values_ok hrec ds hwf
    · have h1 : parse_reservoir_data c net (.arr ds) = .ok none := by
        unfold parse_reservoir_data
        rw [if_neg ht]
      exact ⟨none, h1⟩

theorem parse_consumption_data_ok (c : Client) (net : Net) (datasets : JVal)
    (hwf : wfDatasetList datasets = true)
    (hrec : ∀ (rid : JVal) (lim : ℚ) (j : JVal),
      get_dataset_resource_data c net rid lim = some j → isObjList j = true) :
    ∃ o, parse_consumption_data c net datasets = .ok o := by
  match datasets, hwf with
  | .arr ds, hwf =>
    simp only [wfDatasetList] at hwf
    by_cases ht : (JVal.arr ds).truthy
    · have h1 : parse_consumption_data c net (.arr ds) =
        parseDatasets c net ["carga", "demanda", "consumo", "load"]
          extract_consumption_values ds := by
        unfold parse_consumption_data
        rw [if_pos ht]
        rfl
      rw [h1]
      exact parseDatasets_ok c net _ _ extract_consumption_values_ok hrec ds hwf
    · have h1 : parse_consumption_data c net (.arr ds) = .ok none := by
        unfold parse_consumption_data
        rw [if_neg ht]
      exact ⟨none, h1⟩

theorem reservoir_catalog_ok (c : Client) (net : Net)
    (hwf : wfDatasetList (search_datasets c net "reservatorio") = true)
    (hrec : ∀ (rid : JVal) (lim : ℚ) (j : JVal),
      get_dataset_resource_data c net rid lim = some j → isObjList j = true) :
    ∃ p, reservoir_catalog c net = .ok p := by
  obtain ⟨o, ho⟩ := parse_reservoir_data_ok c net _ hwf hrec
  simp only [reservoir_catalog]
  match hds : search_datasets c net "reservatorio", hwf with
  | .arr ds, _ =>
    rw [hds] at ho
    simp only [pyLen]
    by_cases hn : 0 < ds.length
    · simp only [decide_eq_true_eq]
      rw [if_pos hn, ho]
      exact ⟨_, rfl⟩
    · simp only [decide_eq_true_eq]
      rw [if_neg hn]
      exact ⟨_, rfl⟩

theorem consumption_catalog_ok (c : Client) (net : Net)
    (hwf : wfDatasetList (search_datasets c net "carga") = true)
    (hrec : ∀ (rid : JVal) (lim : ℚ) (j : JVal),
      get_dataset_resource_data c net rid lim = some j → isObjList j = true) :
    ∃ p, consumption_catalog c net = .ok p := by
  obtain ⟨o, ho⟩ := parse_consumption_data_ok c net _ hwf hrec
  simp only [consumption_catalog]
  match hds : search_datasets c net "carga", hwf with
  | .arr ds, _ =>
    rw [hds] at ho
    simp only [pyLen]
    by_cases hn : 0 < ds.length
    · simp only [decide_eq_true_eq]
      rw [if_pos hn, ho]
      exact ⟨_, rfl⟩
    · simp only [decide_eq_true_eq]
      rw [if_neg hn]
      exact ⟨_, rfl⟩

theorem get_reservoir_data_exc_ok (c : Client) (net : Net) (curYear : ℤ) (now : String)
    (hcat : ∃ p, reservoir_catalog c net = .ok p) :
    ∃ s, get_reservoir_data_exc c net curYear now = .ok s ∧
      (s.data_source = "ONS S3" ∨ s.data_source = "ONS API" ∨
        s.data_source = "Fallback data") := by
  unfold get_reservoir_data_exc
  rcases hs3 : get_reservoir_data_from_s3 c net curYear with _ | regs
  · obtain ⟨p, hp⟩ := hcat
    rw [hp]
    rcases p with ⟨acc, _ | regs⟩
    · exact ⟨_, rfl, Or.inr (Or.inr rfl)⟩
    · exact ⟨_, rfl, Or.inr (Or.inl rfl)⟩
  · exact ⟨_, rfl, Or.inl rfl⟩

theorem get_grid_consumption_exc_ok (c : Client) (net : Net) (curYear : ℤ) (now : String)
    (hcat : ∃ p, consumption_catalog c net = .ok p) :
    ∃ s, get_grid_consumption_exc c net curYear now = .ok s ∧
      (s.data_source = "ONS S3" ∨ s.data_source = "ONS API" ∨
        s.data_source = "Fallback data") := by
  unfold get_grid_consumption_exc
  rcases hs3 : get_consumption_data_from_s3 c net curYear with _ | cd
  · obtain ⟨p, hp⟩ := hcat
    rw [hp]
    rcases p with ⟨acc, _ | cd⟩
    · exact ⟨_, rfl, Or.inr (Or.inr rfl)⟩
    · exact ⟨_, rfl, Or.inr (Or.inl rfl)⟩
  · exact ⟨_, rfl, Or.inl rfl⟩

/-- C1: for every transport behaviour whose catalog responses are either
failures or well-formed dataset lists with well-formed sampled records —
network errors, empty bodies and empty dataset lists included — both fetcher
entry points return a snapshot dict (never raise), and its provenance is one
of the three tiers: direct S3, parsed catalog data, or the static fallback.
The unconditional form of the claim fails: a malformed catalog body drives
the fetcher into the bare error dict instead (see the counterexample). -/
theorem c1_no_error_for_wellformed (c : Client) (net : Net) (curYear : ℤ) (now : String)
    (hdsR : wfDatasetList (search_datasets c net "reservatorio") = true)
    (hdsC : wfDatasetList (search_datasets c net "carga") = true)
    (hrec : ∀ (rid : JVal) (lim : ℚ) (j : JVal),
      get_dataset_resource_data c net rid lim = some j → isObjList j = true) :
    (∃ s, fetch_reservoir_data c net curYear now = .snap s ∧
      (s.data_source = "ONS S3" ∨ s.data_source = "ONS API" ∨
        s.data_source = "Fallback data")) ∧
    (∃ s, fetch_grid_consumption c net curYear now = .snap s ∧
      (s.data_source = "ONS S3" ∨ s.data_source = "ONS API" ∨
        s.data_source = "Fallback data")) := by
  constructor
  · obtain ⟨s, hs, hsrc⟩ := get_reservoir_data_exc_ok c net curYear now
      (reservoir_catalog_ok c net hdsR hrec)
    refine ⟨s, ?_, hsrc⟩
    unfold fetch_reservoir_data
    rw [hs]
  · obtain ⟨s, hs, hsrc⟩ := get_grid_consumption_exc_ok c net curYear now
      (consumption_catalog_ok c net hdsC hrec)
    refine ⟨s, ?_, hsrc⟩
    unfold fetch_grid_consumption
    rw [hs]

/-- A transport whose catalog endpoint serves a well-formed CKAN envelope
whose dataset list holds a bare number instead of a dataset dict, and whose
object store always fails. -/
def netMalformed : Net :=
  ⟨fun _ _ => .ok (.obj [("success", .bool true),
      ("result", .obj [("results", .arr [.num 42])])]),
   fun _ => .error "connection error"⟩

/-- C1, counterexample: against `netMalformed` the reservoir fetcher does not
produce any snapshot — the `AttributeError` raised by `.get` on the non-dict
dataset entry reaches the top-level handler, which returns the bare
`\x7b'error': ...\x7d` dict, contradicting "never a bare error indicator". -/
theorem c1_counterexample :
    fetch_reservoir_data cLive netMalformed 2024 "2024-06-01T00:00:00" =
      .errorDict "AttributeError: get on non-dict" := by
  with_unfolding_all rfl

/-- C1, witness: the dead transport satisfies the well-formedness hypotheses
and both fetchers land on a snapshot (the fallback one). -/
theorem c1_witness :
    (∃ s, fetch_reservoir_data cLive netDown 2024 "2024-06-01T00:00:00" = .snap s ∧
      (s.data_source = "ONS S3" ∨ s.data_source = "ONS API" ∨
        s.data_source = "Fallback data")) ∧
    (∃ s, fetch_grid_consumption cLive netDown 2024 "2024-06-01T00:00:00" = .snap s ∧
      (s.data_source = "ONS S3" ∨ s.data_source = "ONS API" ∨
        s.data_source = "Fallback data")) :=
  c1_no_error_for_wellformed cLive netDown 2024 "2024-06-01T00:00:00"
    (by with_unfolding_all rfl) (by with_unfolding_all rfl)
    (fun rid lim j hj => by
      rw [show get_dataset_resource_data cLive netDown rid lim = none from rfl] at hj
      exact Option.noConfusion hj)

/-- C2: whenever the bulk S3 tier (which itself tries the current and the
previous year) yields nothing and the catalog tier completes with an empty
parse for a metric, the fetcher returns the static fallback snapshot: its
`data_source` is "Fallback data" and its payload is the fixed reference
constants, which cover exactly the four canonical regions. -/
theorem c2_fallback_invariant (c : Client) (net : Net) (curYear : ℤ) (now : String)
    (accR accC : Bool)
    (hs3r : get_reservoir_data_from_s3 c net curYear = none)
    (hcatr : reservoir_catalog c net = .ok (accR, none))
    (hs3c : get_consumption_data_from_s3 c net curYear = none)
    (hcatc : consumption_catalog c net = .ok (accC, none)) :
    (∃ note, fetch_reservoir_data c net curYear now =
      .snap ⟨fallbackReservoirRegions now, "Fallback data", note⟩) ∧
    (∃ note, fetch_grid_consumption c net curYear now =
      .snap ⟨fallbackConsumption now, "Fallback data", note⟩) ∧
    (fallbackReservoirRegions now).map Prod.fst =
      ["southeast", "south", "northeast", "north"] ∧
    (fallbackConsumption now).regions.map Prod.fst =
      ["southeast", "south", "northeast", "north"] := by
  have h1 : fetch_reservoir_data c net curYear now =
      .snap ⟨fallbackReservoirRegions now, "Fallback data",
        if accR then "ONS API accessible but data format not recognized"
        else "ONS API temporarily unavailable"⟩ := by
    unfold fetch_reservoir_data get_reservoir_data_exc
    rw [hs3r, hcatr]
  have h2 : fetch_grid_consumption c net curYear now =
      .snap ⟨fallbackConsumption now, "Fallback data",
        if accC then "ONS API accessible but data format not recognized"
        else "ONS API temporarily unavailable"⟩ := by
    unfold fetch_grid_consumption get_grid_consumption_exc
    rw [hs3c, hcatc]
  exact ⟨⟨_, h1⟩, ⟨_, h2⟩, rfl, rfl⟩

/-- C2, witness: with the dead transport both tiers come back empty and both
fetchers return the fallback snapshot with the four canonical regions. -/
theorem c2_witness :
    (∃ note, fetch_reservoir_data cLive netDown 2024 "2024-06-01T00:00:00" =
      .snap ⟨fallbackReservoirRegions "2024-06-01T00:00:00", "Fallback data", note⟩) ∧
    (∃ note, fetch_grid_consumption cLive netDown 2024 "2024-06-01T00:00:00" =
      .snap ⟨fallbackConsumption "2024-06-01T00:00:00", "Fallback data", note⟩) ∧
    (fallbackReservoirRegions "2024-06-01T00:00:00").map Prod.fst =
      ["southeast", "south", "northeast", "north"] ∧
    (fallbackConsumption "2024-06-01T00:00:00").regions.map Prod.fst =
      ["southeast", "south", "northeast", "north"] :=
  c2_fallback_invariant cLive netDown 2024 "2024-06-01T00:00:00" false false
    (by with_unfolding_all rfl) (by with_unfolding_all rfl)
    (by with_unfolding_all rfl) (by with_unfolding_all rfl)
